import Mathlib

/-!
# Verification of the quad_scrape fact-promotion / entity-linking core

A shallow embedding, in Lean 4, of the parts of the `combo` package that the
specification's testable properties talk about:

* `src/combo/link/registry.py` — the canonical identity registry
  (`normalize_label`, `deterministic_id` via RFC-4122 UUIDv5 over SHA-1,
  `get_or_create_canonical`, `add_alias`, `add_external_id`), with the SQLite
  store modelled as an explicit state value and `INSERT OR IGNORE` as
  conditional append.
* `src/combo/link/linker.py` — `link_entities`, including the fact that the
  output file is (re)written once per document base.
* `src/combo/coref/within_doc.py` — feature derivation, the number heuristic
  `_estimate_number_for_candidate`, and `resolve_coref`.
* `src/combo/pipeline/promote.py` and `_promote_utils.py` — relation
  bucketing, aggregation, the gate cascade of `promote`, and the
  deterministic JSONL writer.

Python `dict`s are modelled as association lists, JSON values by the `Json`
inductive below, floats by `ℚ` (exact rationals; the float-specific rounding
of CPython is not load-bearing for any property proved here; conversion of
numeric *strings* to floats is outside the model and treated as failing),
and `str()` / truthiness field access by explicit functions.  SQLite's
`journal_mode` / `synchronous` pragmas and the optional FTS table are I/O
configuration with no bearing on the relational semantics and are not
modelled.
-/

namespace Combo

set_option maxRecDepth 20000

/-! ## Kernel-computable primitives

Character-list implementations of the string operations the sources use
(Python `str.upper` / `str.lower` / `str.strip`, code-point-lexicographic
comparison, substring and suffix tests), and `mkRat`-based rational
arithmetic for Python float `+` and `/`.  These are extensionally the
standard operations; they are spelled out so that every definition in this
file evaluates inside the kernel on concrete inputs. -/

/-- `str.upper()` (ASCII case mapping). -/
def strUpper (s : String) : String := String.mk (s.data.map Char.toUpper)

/-- `str.lower()` (ASCII case mapping). -/
def strLower (s : String) : String := String.mk (s.data.map Char.toLower)

/-- `str.strip()`: drop surrounding whitespace. -/
def strTrim (s : String) : String :=
  String.mk (((s.data.dropWhile Char.isWhitespace).reverse.dropWhile Char.isWhitespace).reverse)

/-- Code-point lexicographic `≤` on character lists. -/
def charListLe : List Char → List Char → Bool
  | [], _ => true
  | _ :: _, [] => false
  | a :: as, b :: bs =>
      if a.toNat < b.toNat then true
      else if a.toNat = b.toNat then charListLe as bs
      else false

/-- Python string `<=` (code-point lexicographic). -/
def strLeB (a b : String) : Bool := charListLe a.data b.data

/-- Python string `<` (code-point lexicographic). -/
def strLtB (a b : String) : Bool := strLeB a b && a != b

/-- Python `w in s` (substring containment) on character lists. -/
def charListContains (s w : List Char) : Bool :=
  if w.isPrefixOf s then true
  else
    match s with
    | [] => false
    | _ :: rest => charListContains rest w

/-- Python `w in s` (substring containment). -/
def strContains (s w : String) : Bool := charListContains s.data w.data

/-- Python `s.endswith(suf)`. -/
def strEndsWith (s suf : String) : Bool := suf.data.reverse.isPrefixOf s.data.reverse

/-- Rational addition via `mkRat` (Python float `+`, modelled exactly). -/
def ratAdd (a b : ℚ) : ℚ := mkRat (a.num * b.den + b.num * a.den) (a.den * b.den)

/-- Rational division via `mkRat` (Python float `/`; division by zero does
not occur on the guarded paths). -/
def ratDiv (a b : ℚ) : ℚ := mkRat (a.num * b.den * b.num.sign) (a.den * b.num.natAbs)

/-- Sum of a list of rationals. -/
def ratSum (l : List ℚ) : ℚ := l.foldl ratAdd 0

/-- Insert `a` after every element `b` with `le b a`, so that a later
element lands after existing ties — the stable placement of Python
`sorted`. -/
def insertAfterTies (le : α → α → Bool) (a : α) : List α → List α
  | [] => [a]
  | b :: bs => if le b a then b :: insertAfterTies le a bs else a :: b :: bs

/-- Python `sorted(l, key=...)`: a stable sort w.r.t. the boolean `≤`
comparator `le` (structural, so the kernel can evaluate it). -/
def pySort (le : α → α → Bool) (l : List α) : List α :=
  l.foldl (fun acc a => insertAfterTies le a acc) []

/-! ## Bytes, SHA-1 and UUIDv5

`registry.deterministic_id` calls `uuid.uuid5(uuid.NAMESPACE_URL, name)`,
which is SHA-1 over the namespace bytes followed by the UTF-8 bytes of the
name, truncated to 16 bytes with the version/variant bits forced
(RFC 4122 §4.3).  We implement SHA-1 (FIPS 180-1) over `List Nat` byte
strings, each byte `< 256`, words as `Nat` reduced mod `2^32`. -/

/-- Truncate to a 32-bit word. -/
def w32 (x : Nat) : Nat := x % 4294967296

/-- Rotate a 32-bit word left by `n` (for `x < 2^32`, `n ≤ 32`). -/
def rotl32 (n x : Nat) : Nat := w32 (x * 2 ^ n + x / 2 ^ (32 - n))

/-- SHA-1 round constants. -/
def sha1K (i : Nat) : Nat :=
  if i < 20 then 0x5A827999
  else if i < 40 then 0x6ED9EBA1
  else if i < 60 then 0x8F1BBCDC
  else 0xCA62C1D6

/-- SHA-1 round functions (`Ch`, `Parity`, `Maj`, `Parity`). -/
def sha1F (i b c d : Nat) : Nat :=
  if i < 20 then (b &&& c) ||| ((b ^^^ 0xFFFFFFFF) &&& d)
  else if i < 40 then b ^^^ c ^^^ d
  else if i < 60 then (b &&& c) ||| (b &&& d) ||| (c &&& d)
  else b ^^^ c ^^^ d

/-- Message-schedule extension: `recent` keeps already-produced words most
recent first; produces the full schedule (in order) after `fuel` steps. -/
def sha1Schedule : Nat → List Nat → List Nat
  | 0, recent => recent.reverse
  | fuel + 1, recent =>
      let w := rotl32 1
        ((recent.getD 2 0) ^^^ (recent.getD 7 0) ^^^ (recent.getD 13 0) ^^^ (recent.getD 15 0))
      sha1Schedule fuel (w :: recent)

/-- The 80 compression rounds. -/
def sha1Rounds : List Nat → Nat → Nat × Nat × Nat × Nat × Nat → Nat × Nat × Nat × Nat × Nat
  | [], _, st => st
  | w :: ws, i, (a, b, c, d, e) =>
      let t := w32 (rotl32 5 a + sha1F i b c d + e + sha1K i + w)
      sha1Rounds ws (i + 1) (t, a, rotl32 30 b, c, d)

/-- Big-endian bytes of a 32-bit word. -/
def be32 (n : Nat) : List Nat :=
  [n / 16777216 % 256, n / 65536 % 256, n / 256 % 256, n % 256]

/-- Big-endian bytes of a 64-bit value. -/
def be64 (n : Nat) : List Nat :=
  be32 (n / 4294967296) ++ be32 n

/-- Group a byte string into big-endian 32-bit words. -/
def bytesToWords : List Nat → List Nat
  | b0 :: b1 :: b2 :: b3 :: rest => (((b0 * 256 + b1) * 256 + b2) * 256 + b3) :: bytesToWords rest
  | _ => []

/-- SHA-1 padding: `0x80`, zeros, then the 64-bit big-endian bit length,
to a multiple of 64 bytes. -/
def sha1Pad (msg : List Nat) : List Nat :=
  let padZeros := (119 - msg.length % 64) % 64
  msg ++ [0x80] ++ List.replicate padZeros 0 ++ be64 (8 * msg.length)

/-- Split into 64-byte blocks (fuel-based structural recursion so that the
kernel can evaluate it; `fuel = l.length` always suffices). -/
def chunks64Aux : Nat → List Nat → List (List Nat)
  | 0, _ => []
  | fuel + 1, l => if l.isEmpty then [] else l.take 64 :: chunks64Aux fuel (l.drop 64)

/-- Split into 64-byte blocks. -/
def chunks64 (l : List Nat) : List (List Nat) := chunks64Aux l.length l

/-- SHA-1 digest (20 bytes) of a byte string. -/
def sha1 (msg : List Nat) : List Nat :=
  let step := fun (h : Nat × Nat × Nat × Nat × Nat) (block : List Nat) =>
    let (h0, h1, h2, h3, h4) := h
    let ws := sha1Schedule 64 (bytesToWords block).reverse
    let (a, b, c, d, e) := sha1Rounds ws 0 (h0, h1, h2, h3, h4)
    (w32 (h0 + a), w32 (h1 + b), w32 (h2 + c), w32 (h3 + d), w32 (h4 + e))
  let (h0, h1, h2, h3, h4) :=
    (chunks64 (sha1Pad msg)).foldl step
      (0x67452301, 0xEFCDAB89, 0x98BADCFE, 0x10325476, 0xC3D2E1F0)
  be32 h0 ++ be32 h1 ++ be32 h2 ++ be32 h3 ++ be32 h4

/-- UTF-8 encoding of one code point. -/
def charUtf8 (c : Char) : List Nat :=
  let n := c.toNat
  if n < 0x80 then [n]
  else if n < 0x800 then [0xC0 + n / 64, 0x80 + n % 64]
  else if n < 0x10000 then [0xE0 + n / 4096, 0x80 + n / 64 % 64, 0x80 + n % 64]
  else [0xF0 + n / 262144, 0x80 + n / 4096 % 64, 0x80 + n / 64 % 64, 0x80 + n % 64]

/-- UTF-8 bytes of a string. -/
def utf8Bytes (s : String) : List Nat := (s.toList.map charUtf8).join

/-- Lower-case hex digit. -/
def hexDigit (n : Nat) : String :=
  if n < 10 then String.singleton (Char.ofNat (48 + n))
  else String.singleton (Char.ofNat (87 + n))

/-- Two-digit lower-case hex of one byte. -/
def byteHex (b : Nat) : String := hexDigit (b / 16) ++ hexDigit (b % 16)

/-- Hex string of a byte list. -/
def hexOf (bs : List Nat) : String := String.join (bs.map byteHex)

/-- `uuid.NAMESPACE_URL` = 6ba7b811-9dad-11d1-80b4-00c04fd430c8. -/
def namespaceUrlBytes : List Nat :=
  [0x6b, 0xa7, 0xb8, 0x11, 0x9d, 0xad, 0x11, 0xd1,
   0x80, 0xb4, 0x00, 0xc0, 0x4f, 0xd4, 0x30, 0xc8]

/-- `str(uuid.uuid5(uuid.NAMESPACE_URL, name))`: SHA-1 of namespace ++ name,
first 16 bytes, version nibble forced to 5, variant bits to `10`,
rendered as the canonical dashed lower-case hex form. -/
def uuid5Url (name : String) : String :=
  let d := (sha1 (namespaceUrlBytes ++ utf8Bytes name)).take 16
  let b := (d.set 6 (d.getD 6 0 % 16 + 0x50)).set 8 (d.getD 8 0 % 64 + 0x80)
  hexOf (b.take 4) ++ "-" ++ hexOf ((b.drop 4).take 2) ++ "-" ++
    hexOf ((b.drop 6).take 2) ++ "-" ++ hexOf ((b.drop 8).take 2) ++ "-" ++
    hexOf (b.drop 10)

/-! ## Identity registry (`src/combo/link/registry.py`)

The SQLite store is modelled as an explicit `RegState` value: each table is a
list of rows in insertion order, and `INSERT OR IGNORE` appends unless the
new row would violate one of the declared uniqueness constraints of
`init_schema` (`entities`: primary key `canonical_id` and unique index
`(type, normalized_label)`; `aliases`: unique `(canonical_id, alias)`;
`external_ids`: unique `(source, external_id)`). -/

/-- `normalize_label`: strip surrounding whitespace, lowercase. -/
def normalize_label (label : String) : String := strLower (strTrim label)

/-- `deterministic_id`: deterministic UUIDv5 of
`combo://entity/{TYPE}|{normalized label}` under `uuid.NAMESPACE_URL`. -/
def deterministic_id (ent_type normalized_label : String) : String :=
  uuid5Url ("combo://entity/" ++ strUpper ent_type ++ "|" ++ normalize_label normalized_label)

/-- One row of the `entities` table. -/
structure EntityRow where
  canonical_id : String
  type : String
  normalized_label : String
  primary_name : Option String
deriving DecidableEq, Repr

/-- The registry store (the three tables of `init_schema`). -/
structure RegState where
  entities : List EntityRow
  aliases : List (String × String)
  external_ids : List (String × String × String)
deriving DecidableEq, Repr

/-- Freshly initialised store. -/
def RegState.empty : RegState := ⟨[], [], []⟩

/-- `INSERT OR IGNORE INTO entities`: skipped iff the row would violate the
primary key on `canonical_id` or the unique index on `(type, normalized_label)`. -/
def insertEntityOrIgnore (rows : List EntityRow) (r : EntityRow) : List EntityRow :=
  if rows.any (fun q => q.canonical_id == r.canonical_id ||
      (q.type == r.type && q.normalized_label == r.normalized_label)) then rows
  else rows ++ [r]

/-- `INSERT OR IGNORE INTO aliases` (unique `(canonical_id, alias)` pair). -/
def insertAliasOrIgnore (rows : List (String × String)) (r : String × String) :
    List (String × String) :=
  if rows.any (fun q => q == r) then rows else rows ++ [r]

/-- `get_or_create_canonical(conn, ent_type, normalized_label, primary_name)`.

Upper-cases the type and normalizes the label, looks the pair up in
`entities`; on a hit returns the stored ID unchanged, otherwise mints the
deterministic ID, inserts the row (or-ignore), and registers a truthy
`primary_name` as an alias.  Returns the ID and the updated store. -/
def get_or_create_canonical (st : RegState) (ent_type normalized_label : String)
    (primary_name : Option String := none) : String × RegState :=
  let tU := strUpper ent_type
  let norm := Combo.normalize_label normalized_label
  match st.entities.find? (fun r => r.type == tU && r.normalized_label == norm) with
  | some r => (r.canonical_id, st)
  | none =>
      let can_id := deterministic_id tU norm
      let ents := insertEntityOrIgnore st.entities ⟨can_id, tU, norm, primary_name⟩
      let als := match primary_name with
        | some p => if p == "" then st.aliases else insertAliasOrIgnore st.aliases (can_id, p)
        | none => st.aliases
      (can_id, { st with entities := ents, aliases := als })

/-- `add_alias(conn, canonical_id, alias)`: no-op on falsy alias, else
insert-or-ignore. -/
def add_alias (st : RegState) (canonical_id aliasText : String) : RegState :=
  if aliasText == "" then st
  else { st with aliases := insertAliasOrIgnore st.aliases (canonical_id, aliasText) }

/-- `add_external_id(conn, canonical_id, source, external_id)`: no-op on falsy
`external_id`, else insert-or-ignore under unique `(source, external_id)`. -/
def add_external_id (st : RegState) (canonical_id source external_id : String) : RegState :=
  if external_id == "" then st
  else if st.external_ids.any (fun r => r.2.1 == source && r.2.2 == external_id) then st
  else { st with external_ids := st.external_ids ++ [(canonical_id, source, external_id)] }

/-- Number of `external_ids` rows claiming a given `(source, external_id)`
pair. -/
def countExternalPair (st : RegState) (source external_id : String) : Nat :=
  (st.external_ids.filter (fun r => r.2.1 == source && r.2.2 == external_id)).length

/-- Registry invariant: every entity row was minted by
`get_or_create_canonical`, i.e. its stored ID is the deterministic UUID of
its stored (already upper-cased) type and (already normalized) label.  Holds
for every store reachable through the registry API from an empty store. -/
def RegInv (st : RegState) : Prop :=
  ∀ r ∈ st.entities, r.canonical_id = deterministic_id r.type r.normalized_label

/-! ## JSON values and the stable serialization
(`_promote_utils.stable_json_sort_key`, `promote._write_jsonl`) -/

/-- JSON values (Python objects on the `json.dumps` boundary).  Numbers are
modelled as exact rationals. -/
inductive Json where
  | jnull
  | jbool (b : Bool)
  | jnum (q : ℚ)
  | jstr (s : String)
  | jarr (items : List Json)
  | jobj (fields : List (String × Json))

/-- JSON string-literal escaping (backslash and double quote; other escapes
do not occur in the modelled records). -/
def jsonEscape (s : String) : String :=
  s.toList.foldr
    (fun c acc =>
      (if c = '\\' then "\\\\" else if c = '"' then "\\\"" else String.singleton c) ++ acc) ""

/-- A JSON string literal. -/
def jsonQuote (s : String) : String := "\"" ++ jsonEscape s ++ "\""

/-- Rendering of a JSON number.  Integral values match CPython; the rendering
of non-integral floats is modelled as exact-rational text (deterministic and
injective, which is all the serialization key needs). -/
def numRepr (q : ℚ) : String :=
  if q.den = 1 then toString q.num else toString q.num ++ "/" ++ toString q.den

mutual

/-- `json.dumps(v, ensure_ascii=False, sort_keys=True)` with the default
separators.  Object fields are serialized in stored order; every object this
embedding builds keeps its field list in sorted-key order, matching
`sort_keys=True`. -/
def Json.dumps : Json → String
  | .jnull => "null"
  | .jbool b => if b then "true" else "false"
  | .jnum q => numRepr q
  | .jstr s => jsonQuote s
  | .jarr items => "[" ++ String.intercalate ", " (Json.dumpsList items) ++ "]"
  | .jobj fields => "\x7b" ++ String.intercalate ", " (Json.dumpsFields fields) ++ "\x7d"

/-- Serializations of the items of a JSON array. -/
def Json.dumpsList : List Json → List String
  | [] => []
  | v :: vs => v.dumps :: Json.dumpsList vs

/-- Serializations of the fields of a JSON object. -/
def Json.dumpsFields : List (String × Json) → List String
  | [] => []
  | (k, v) :: fs => (jsonQuote k ++ ": " ++ v.dumps) :: Json.dumpsFields fs

end

/-- `stable_json_sort_key(obj)`: the sorted-keys JSON serialization, used as
the deterministic sort key for output rows. -/
def stable_json_sort_key (r : Json) : String := r.dumps

/-- The byte content written by `promote._write_jsonl`: rows sorted by
`stable_json_sort_key` (Python `sorted` = stable mergesort), then one
sorted-keys serialization plus newline per row. -/
def writeJsonlContent (rows : List Json) : String :=
  String.join
    (((pySort (fun a b => strLeB (stable_json_sort_key a) (stable_json_sort_key b)) rows).map
      (fun r => r.dumps ++ "\n")))

/-! ## Promotion-engine data model (`src/combo/pipeline/promote.py`,
`src/combo/pipeline/_promote_utils.py`) -/

/-- A scalar JSON value as found in `sent_id` / `doc_id` fields: absent or
null, a string, or an integer. -/
inductive SVal where
  | snull
  | sstr (s : String)
  | sint (n : Int)
deriving DecidableEq, Repr

/-- Python truthiness of an `SVal` (`None`, `""`, `0` are falsy). -/
def SVal.truthy : SVal → Bool
  | .snull => false
  | .sstr s => s != ""
  | .sint n => n != 0

/-- Python `str()` of an `SVal` (`str(None) = "None"`). -/
def SVal.toStr : SVal → String
  | .snull => "None"
  | .sstr s => s
  | .sint n => toString n

/-- `SVal` back to JSON. -/
def SVal.toJson : SVal → Json
  | .snull => .jnull
  | .sstr s => .jstr s
  | .sint n => .jnum (n : ℚ)

/-- Python truthiness of an optional string (`None` and `""` are falsy). -/
def optTruthy : Option String → Bool
  | none => false
  | some s => s != ""

/-- A relation mention record (the fields `promote.py` reads from
`*.rels.jsonl`). -/
structure RelMention where
  mention_id : Option String
  predicate : Option String
  subj_canonical_id : Option String
  obj_canonical_id : Option String
  subj_labels : List String
  obj_labels : List String
  doc_id : SVal
  sent_id : SVal
  span : List Int
  confidence : Option ℚ
  props : List (String × Json)

/-- `Option String` to JSON. -/
def optStrJson : Option String → Json
  | none => .jnull
  | some s => .jstr s

/-- The JSON object of a relation mention (fields in sorted key order,
matching `sort_keys=True`). -/
def relMentionJson (m : RelMention) : Json :=
  .jobj [("confidence", match m.confidence with | none => .jnull | some q => .jnum q),
         ("doc_id", m.doc_id.toJson),
         ("mention_id", optStrJson m.mention_id),
         ("obj_canonical_id", optStrJson m.obj_canonical_id),
         ("obj_labels", .jarr (m.obj_labels.map .jstr)),
         ("predicate", optStrJson m.predicate),
         ("props", .jobj m.props),
         ("sent_id", m.sent_id.toJson),
         ("span", .jarr (m.span.map (fun n => .jnum (n : ℚ)))),
         ("subj_canonical_id", optStrJson m.subj_canonical_id),
         ("subj_labels", .jarr (m.subj_labels.map .jstr))]

/-- A relation-group key `(subj_canonical_id, predicate, obj_canonical_id)`. -/
abbrev GroupKey := String × String × String

/-- Lexicographic comparison of 3-tuples of strings (Python tuple `<=`). -/
def lex3Le (a b : GroupKey) : Bool :=
  strLtB a.1 b.1 ||
    (a.1 == b.1 && (strLtB a.2.1 b.2.1 || (a.2.1 == b.2.1 && strLeB a.2.2 b.2.2)))

/-- Append a mention to its bucket, preserving first-appearance bucket order
(Python `defaultdict` insertion order). -/
def bucketInsert (buckets : List (GroupKey × List RelMention)) (k : GroupKey)
    (m : RelMention) : List (GroupKey × List RelMention) :=
  match buckets with
  | [] => [(k, [m])]
  | (k', g) :: rest =>
      if k' = k then (k', g ++ [m]) :: rest else (k', g) :: bucketInsert rest k m

/-- `_bucket_relations`: group mentions by `(subj, predicate, obj)`, skipping
any mention whose subject id, object id or predicate is falsy (missing, null
or empty); the second component is `counts['mentions_relations']`, counting
only the mentions kept. -/
def _bucket_relations (ms : List RelMention) :
    List (GroupKey × List RelMention) × Nat :=
  ms.foldl
    (fun acc m =>
      if optTruthy m.subj_canonical_id && optTruthy m.obj_canonical_id &&
          optTruthy m.predicate then
        (bucketInsert acc.1
          (m.subj_canonical_id.getD "", m.predicate.getD "", m.obj_canonical_id.getD "") m,
         acc.2 + 1)
      else acc)
    ([], 0)

/-- Python `sorted({str(x) for x in vs if x})`: distinct stringified truthy
values, ascending. -/
def sortedDistinctStrs (vs : List SVal) : List String :=
  pySort (fun a b => strLeB a b) (((vs.filter SVal.truthy).map SVal.toStr).dedup)

/-- `float(x.get('confidence') or 0.0)`. -/
def confVal (m : RelMention) : ℚ := m.confidence.getD 0

/-- The sort key `(str(doc_id), str(sent_id), stable_json_sort_key(r))` used
for mention samples and quarantine examples. -/
def mentionSortKey (m : RelMention) : GroupKey :=
  (m.doc_id.toStr, m.sent_id.toStr, stable_json_sort_key (relMentionJson m))

/-- A compact mention sample (`doc_id`, `sent_id`, `span`, `confidence`). -/
structure MentionSample where
  doc_id : SVal
  sent_id : SVal
  span : List Int
  confidence : ℚ
deriving DecidableEq, Repr

/-- The aggregate of one relation group. -/
structure RelAgg where
  avg_confidence : ℚ
  ev_count : Nat
  doc_count : Nat
  mentions : List MentionSample
deriving DecidableEq, Repr

/-- The group sorted by `(str(doc_id), str(sent_id), stable key)`. -/
def sortGroupByKey (group : List RelMention) : List RelMention :=
  pySort (fun a b => lex3Le (mentionSortKey a) (mentionSortKey b)) group

/-- `_aggregate_relation_group`: average confidence, count of distinct truthy
sentence ids, count of distinct truthy document ids, and up to
`max_mentions` compact samples in sorted order. -/
def _aggregate_relation_group (group : List RelMention) (max_mentions : Nat := 20) : RelAgg :=
  let confs := group.map confVal
  let avg := if confs.length = 0 then 0 else ratDiv (ratSum confs) (mkRat (confs.length : Int) 1)
  { avg_confidence := avg,
    ev_count := (sortedDistinctStrs (group.map (·.sent_id))).length,
    doc_count := (sortedDistinctStrs (group.map (·.doc_id))).length,
    mentions := ((sortGroupByKey group).take max_mentions).map
      (fun m => { doc_id := m.doc_id, sent_id := m.sent_id, span := m.span,
                  confidence := confVal m }) }

/-- Association-list lookup (Python `dict.get`). -/
def alookup {α : Type} (l : List (String × α)) (k : String) : Option α :=
  (l.find? (fun kv => kv.1 == k)).map (·.2)

/-- Per-type entity schema: `required[]`, `key[]` and the
`constraints.value_range` bound when declared. -/
structure EntitySchema where
  required : List String
  key : List String
  value_range : Option (ℚ × ℚ)
deriving DecidableEq, Repr

/-- Per-predicate rule: declared `domain` / `range` label lists.  A predicate
mapped to a falsy rule object in the schema is modelled as absent (both are
rejected by the `if not rule` allow-list test). -/
structure RelRule where
  domain : Option (List String)
  range : Option (List String)
deriving DecidableEq, Repr

/-- A linked canonical-entity row as read from `linked.entities.jsonl` (the
fields the promotion engine reads). -/
structure CanonEntity where
  canonical_id : Option String
  type : Option String
  labels : Option (List String)
  key : Option (List (String × Json))
  props : Option (List (String × Json))

/-- `labels_satisfy(role_labels, allowed_labels)`: empty allow-list rejects,
the singleton `["*"]` accepts anything, otherwise any overlap suffices. -/
def labels_satisfy (role_labels allowed_labels : List String) : Bool :=
  if allowed_labels.isEmpty then false
  else if allowed_labels.length == 1 && allowed_labels.getD 0 "" == "*" then true
  else role_labels.any (fun x => allowed_labels.contains x)

/-- `entity_keys_present(canon, schema_entities)`: the type is known and
every `required` field appears in `key` or `props`, every merge-`key` field
in `key` (presence of the dict key, regardless of value). -/
def entity_keys_present (canon : CanonEntity) (se : List (String × EntitySchema)) : Bool :=
  match canon.type with
  | none => false
  | some t =>
      if t == "" then false
      else
        match alookup se t with
        | none => false
        | some sch =>
            let key := canon.key.getD []
            let props := canon.props.getD []
            sch.required.all (fun f => (alookup key f).isSome || (alookup props f).isSome) &&
              sch.key.all (fun f => (alookup key f).isSome)

/-- Python `float(v)` on a JSON scalar.  Conversion of numeric strings is
outside the model (treated as the raising branch, hence `none`). -/
def floatOf : Json → Option ℚ
  | .jnum q => some q
  | .jbool b => some (if b then 1 else 0)
  | _ => none

/-- `type_constraints_ok(canon, schema_entities)`: unknown/falsy type
rejects; with a declared `value_range`, `key.value` must exist, convert and
lie within the bounds. -/
def type_constraints_ok (canon : CanonEntity) (se : List (String × EntitySchema)) : Bool :=
  match canon.type with
  | none => false
  | some t =>
      if t == "" then false
      else
        match alookup se t with
        | none => false
        | some sch =>
            match sch.value_range with
            | none => true
            | some (lo, hi) =>
                match alookup (canon.key.getD []) "value" with
                | none => false
                | some v =>
                    match floatOf v with
                    | none => false
                    | some q => decide (lo ≤ q) && decide (q ≤ hi)

/-- `missing_merge_keys(canon, schema_entities)`: the schema-declared merge
key fields that are absent, `None` or `""` on the entity (unknown types
yield `[]`, in declaration order). -/
def missing_merge_keys (canon : CanonEntity) (se : List (String × EntitySchema)) :
    List String :=
  match canon.type with
  | none => []
  | some t =>
      if t == "" then []
      else
        match alookup se t with
        | none => []
        | some sch =>
            sch.key.filter (fun f =>
              match alookup (canon.key.getD []) f with
              | none => true
              | some .jnull => true
              | some (.jstr s) => s == ""
              | some _ => false)

/-- `predicate_rule.get("domain") or ["*"]` (absent, null or empty become
the wildcard). -/
def orStar : Option (List String) → List String
  | some (a :: rest) => a :: rest
  | _ => ["*"]

/-- `domain_range_ok(subj_labels, obj_labels, predicate_rule)`. -/
def domain_range_ok (subj_labels obj_labels : List String) (rule : RelRule) : Bool :=
  labels_satisfy subj_labels (orStar rule.domain) &&
    labels_satisfy obj_labels (orStar rule.range)

/-- `predicate_specific_ok`: for the TRL predicates, a TRL-ish object must
satisfy its type constraints. -/
def predicate_specific_ok (predicate : String) (obj : CanonEntity)
    (se : List (String × EntitySchema)) : Bool :=
  if predicate == "STARTS_AT_TRL" || predicate == "ENDS_AT_TRL" || predicate == "AT_TRL" then
    if (obj.type.getD "").endsWith "TRL" || (obj.labels.getD []).contains "TRL" then
      type_constraints_ok obj se
    else true
  else true

/-- The `canon_idx` dict built from `linked.entities.jsonl`: rows with a
truthy `canonical_id`, later rows overwriting earlier ones. -/
def canonIndex (rows : List CanonEntity) (cid : String) : Option CanonEntity :=
  (rows.filter (fun r => optTruthy r.canonical_id && r.canonical_id.getD "" == cid)).getLast?

/-- First truthy (non-empty) `props` among the group's mentions. -/
def firstProps (group : List RelMention) : Option (List (String × Json)) :=
  (group.find? (fun m => !m.props.isEmpty)).map (·.props)

/-- The reason codes accumulated for one relation group, in program order
(`promote.py`, relation loop): threshold gate, predicate allow-list,
subject/object presence, merge-key completeness per side, type constraints
per side, then domain/range and predicate-specific checks when applicable. -/
def relGroupReasons (se : List (String × EntitySchema)) (sr : List (String × RelRule))
    (canon : String → Option CanonEntity) (conf_thr : ℚ) (min_ev : Int)
    (sid pred oid : String) (group : List RelMention) : List String :=
  let agg := _aggregate_relation_group group
  let rule := alookup sr pred
  let subj := canon sid
  let obj := canon oid
  (if !(decide (agg.avg_confidence ≥ conf_thr) && decide ((agg.ev_count : Int) ≥ min_ev))
    then ["below_threshold"] else []) ++
  (if rule.isNone then ["predicate_not_allowed"] else []) ++
  (if subj.isNone then ["missing_subject"] else []) ++
  (if obj.isNone then ["missing_object"] else []) ++
  (match subj with
   | some s =>
       let miss := missing_merge_keys s se
       if !miss.isEmpty then ["missing_keys:subject:" ++ String.intercalate "," miss] else []
   | none => []) ++
  (match obj with
   | some o =>
       let miss := missing_merge_keys o se
       if !miss.isEmpty then ["missing_keys:object:" ++ String.intercalate "," miss] else []
   | none => []) ++
  (match subj with
   | some s => if !type_constraints_ok s se then ["type_constraint_failed"] else []
   | none => []) ++
  (match obj with
   | some o => if !type_constraints_ok o se then ["type_constraint_failed"] else []
   | none => []) ++
  (match rule, subj, obj with
   | some ru, some s, some o =>
       (if !domain_range_ok (s.labels.getD []) (o.labels.getD []) ru
         then ["domain_range_mismatch"] else []) ++
       (if !predicate_specific_ok pred o se then ["predicate_constraint_failed"] else [])
   | _, _, _ => [])

/-- `subj.get('labels') if subj else []` — the labels carried on a promoted
relation row for one side. -/
def promotedLabels (canon : String → Option CanonEntity) (cid : String) :
    Option (List String) :=
  match canon cid with
  | some s => s.labels
  | none => some []

/-- One promoted relation fact row. -/
structure PromotedRel where
  subj_id : String
  subj_labels : Option (List String)
  predicate : String
  obj_id : String
  obj_labels : Option (List String)
  props : List (String × Json)
  evidence : RelAgg
  policy_conf_thr : ℚ
  policy_min_ev : Int
  schema_version : String

/-- A compact quarantine example (`doc_id`, `sent_id`). -/
structure RelExample where
  doc_id : SVal
  sent_id : SVal
deriving DecidableEq, Repr

/-- One quarantined relation row. -/
structure QuarantinedRel where
  subj_id : String
  predicate : String
  obj_id : String
  group_key : List String
  evidence : RelAgg
  policy_conf_thr : ℚ
  policy_min_ev : Int
  reasons : List String
  examples : List RelExample
  kind : String
  schema_version : String

/-- Evaluate one relation group: quarantine it with the sorted-deduplicated
reason set when any reason triggered, otherwise promote it carrying the
subject/object labels and a props sample from one contributing mention. -/
def evalRelGroup (se : List (String × EntitySchema)) (sr : List (String × RelRule))
    (canon : String → Option CanonEntity) (conf_thr : ℚ) (min_ev : Int)
    (schema_version : String) (sid pred oid : String) (group : List RelMention) :
    PromotedRel ⊕ QuarantinedRel :=
  let agg := _aggregate_relation_group group
  let reasons := relGroupReasons se sr canon conf_thr min_ev sid pred oid group
  if reasons.isEmpty then
    .inl { subj_id := sid,
           subj_labels := promotedLabels canon sid,
           predicate := pred,
           obj_id := oid,
           obj_labels := promotedLabels canon oid,
           props := (firstProps group).getD [],
           evidence := agg,
           policy_conf_thr := conf_thr,
           policy_min_ev := min_ev,
           schema_version := schema_version }
  else
    .inr { subj_id := sid,
           predicate := pred,
           obj_id := oid,
           group_key := [sid, pred, oid],
           evidence := agg,
           policy_conf_thr := conf_thr,
           policy_min_ev := min_ev,
           reasons := pySort (fun a b => strLeB a b) reasons.dedup,
           examples := ((sortGroupByKey group).take 3).map
             (fun m => { doc_id := m.doc_id, sent_id := m.sent_id }),
           kind := "relation",
           schema_version := schema_version }

/-- The relation loop of `promote`: buckets processed in ascending key order,
each appended to exactly one of the two output streams. -/
def processRelGroups (se : List (String × EntitySchema)) (sr : List (String × RelRule))
    (canon : String → Option CanonEntity) (conf_thr : ℚ) (min_ev : Int)
    (schema_version : String) (buckets : List (GroupKey × List RelMention)) :
    List PromotedRel × List QuarantinedRel :=
  (pySort (fun a b => lex3Le a.1 b.1) buckets).foldl
    (fun acc kg =>
      match evalRelGroup se sr canon conf_thr min_ev schema_version
          kg.1.1 kg.1.2.1 kg.1.2.2 kg.2 with
      | .inl p => (acc.1 ++ [p], acc.2)
      | .inr q => (acc.1, acc.2 ++ [q]))
    ([], [])

/-! ## Within-document coreference (`src/combo/coref/within_doc.py`) -/

/-- The closed pronoun table, mapping lowercased form to `(number, gender)`. -/
def PRONOUNS : List (String × String × String) :=
  [("it", "singular", "neut"), ("this", "singular", "neut"), ("that", "singular", "neut"),
   ("he", "singular", "masc"), ("she", "singular", "fem"),
   ("him", "singular", "masc"), ("her", "singular", "fem"),
   ("they", "plural", "unknown"), ("them", "plural", "unknown"),
   ("these", "plural", "neut"), ("those", "plural", "neut")]

/-- The closed device-noun set. -/
def DEVICE_LIKE_WORDS : List String :=
  ["drone", "system", "device", "battery", "pack", "railgun", "prototype"]

/-- Name-gender gazetteer (female). -/
def FEMALE_NAMES : List String :=
  ["jane", "alice", "mary", "anna", "susan", "kate", "karen", "linda"]

/-- Name-gender gazetteer (male). -/
def MALE_NAMES : List String :=
  ["bob", "john", "michael", "tom", "david", "peter", "paul"]

/-- An input entity-mention dict as consumed by `resolve_coref` (the fields
it reads; the source's `end` field is named `stop` here). -/
structure CorefMention where
  text : String
  type : Option String
  sent_id : Option Int
  number : Option String
  gender : Option String
  is_pronoun : Option Bool
  pronoun_form : Option String
  mention_id : Option String
  id : Option String
  doc_id : Option String
  chunk_id : Option String
  start : Option Int
  stop : Option Int
deriving DecidableEq, Repr

/-- Python `m.get(k) or default` for string fields. -/
def strOr (o : Option String) (d : String) : String :=
  match o with
  | some s => if s == "" then d else s
  | none => d

/-- Python `str(x)` of an optional string (`"None"` when absent). -/
def optStrPy : Option String → String
  | none => "None"
  | some s => s

/-- Python `str(x)` of an optional int (`"None"` when absent). -/
def optIntPy : Option Int → String
  | none => "None"
  | some n => toString n

/-- A mention after `_derive_mention_features` (every field populated). -/
structure DerivedMention where
  text : String
  type : Option String
  is_pronoun : Bool
  pronoun_form : Option String
  number : String
  gender : String
  sent_id : Int
  mention_id : String
  id : Option String
deriving DecidableEq, Repr

/-- `_derive_mention_features`: fill `is_pronoun`, `pronoun_form`, `number`,
`gender` (pronoun table, then the name gazetteer for PERSON), `sent_id`
(default 0) and a derived `mention_id` fallback. -/
def _derive_mention_features (m : CorefMention) : DerivedMention :=
  let t := strTrim m.text
  let low := strLower t
  let pron := alookup PRONOUNS low
  let is_pron := pron.isSome
  let number := strOr m.number (match pron with | some p => p.1 | none => "unknown")
  let gender0 := strOr m.gender (match pron with | some p => p.2 | none => "unknown")
  let gender :=
    if strUpper (m.type.getD "") == "PERSON" && gender0 == "unknown" && !is_pron then
      if FEMALE_NAMES.contains low then "fem"
      else if MALE_NAMES.contains low then "masc"
      else gender0
    else gender0
  { text := m.text,
    type := m.type,
    is_pronoun := m.is_pronoun.getD is_pron,
    pronoun_form := match m.pronoun_form with
      | some s => some s
      | none => if is_pron then some low else none,
    number := number,
    gender := gender,
    sent_id := m.sent_id.getD 0,
    mention_id := strOr m.mention_id
      (optStrPy m.doc_id ++ ":" ++ optStrPy m.chunk_id ++ ":" ++
        optIntPy m.start ++ "-" ++ optIntPy m.stop),
    id := m.id }

/-- `_estimate_number_for_candidate`: ORG is always singular; the closed
plural pronouns are plural; otherwise text longer than 3 characters ending
in `"s"` is plural; else singular. -/
def _estimate_number_for_candidate (c : DerivedMention) : String :=
  let txt := strTrim c.text
  if strUpper (c.type.getD "") == "ORG" then "singular"
  else if strLower txt == "they" || strLower txt == "these" || strLower txt == "those" then
    "plural"
  else if txt.length > 3 && strEndsWith txt "s" then "plural"
  else "singular"

/-- `_is_device_like`: PRODUCT/DEVICE types or a device noun in the text. -/
def _is_device_like (c : DerivedMention) : Bool :=
  strUpper (c.type.getD "") == "PRODUCT" || strUpper (c.type.getD "") == "DEVICE" ||
    DEVICE_LIKE_WORDS.any (fun w => strContains (strLower c.text) w)

/-- A mention with its coref fields populated. -/
structure ResolvedMention where
  base : DerivedMention
  antecedent_mention_id : Option String
  resolved_entity_id : Option String
  coref_rule : String
  coref_conf : ℚ
deriving DecidableEq, Repr

/-- The backward candidate scan: mentions before position `i`, nearest
first, within `max_sent_back` sentences, at most `max_mentions_back`. -/
def collectCandidates (aug : List DerivedMention) (i : Nat) (cur_sent : Int)
    (max_sent_back max_mentions_back : Nat) : List DerivedMention :=
  ((aug.take i).reverse.filter
      (fun c => (cur_sent - c.sent_id).natAbs ≤ max_sent_back)).take max_mentions_back

/-- The agreement filter of `resolve_coref`: gendered pronouns reject
incompatible genders; number-marked pronouns reject mismatched estimated
number. -/
def compatible (form num : String) (c : DerivedMention) : Bool :=
  if (form == "he" || form == "him") && !(c.gender == "masc" || c.gender == "unknown") then
    false
  else if (form == "she" || form == "her") && !(c.gender == "fem" || c.gender == "unknown") then
    false
  else if num == "plural" && _estimate_number_for_candidate c != "plural" then false
  else if num == "singular" && _estimate_number_for_candidate c != "singular" then false
  else true

/-- Resolution result for the mention at position `i`. -/
def resolveOne (aug : List DerivedMention) (i : Nat) (m : DerivedMention)
    (max_sent_back max_mentions_back : Nat) : ResolvedMention :=
  if !m.is_pronoun then
    { base := m, antecedent_mention_id := none, resolved_entity_id := none,
      coref_rule := "unresolved", coref_conf := 0 }
  else
    let cands := collectCandidates aug i m.sent_id max_sent_back max_mentions_back
    let form := strLower (m.pronoun_form.getD "")
    let num := if m.number == "" then "unknown" else m.number
    let compat := cands.filter (compatible form num)
    let mk := fun (c : DerivedMention) (rule : String) (conf : ℚ) =>
      { base := m,
        antecedent_mention_id := some c.mention_id,
        resolved_entity_id := some (strOr c.id c.mention_id),
        coref_rule := rule, coref_conf := conf : ResolvedMention }
    let unres : ResolvedMention :=
      { base := m, antecedent_mention_id := none, resolved_entity_id := none,
        coref_rule := "unresolved", coref_conf := 0 }
    if form == "it" || form == "this" || form == "that" then
      match compat.filter _is_device_like with
      | c :: _ => mk c "prefer_device_over_org" (mkRat 85 100)
      | [] =>
          match compat with
          | c :: _ => mk c "nearest_compatible" (mkRat 75 100)
          | [] => unres
    else
      match compat with
      | c :: _ => mk c "nearest_compatible" (if num == "singular" then mkRat 75 100 else mkRat 70 100)
      | [] => unres

/-- `resolve_coref(ents, max_sent_back=3, max_mentions_back=30)`. -/
def resolve_coref (ents : List CorefMention) (max_sent_back : Nat := 3)
    (max_mentions_back : Nat := 30) : List ResolvedMention :=
  let aug := ents.map _derive_mention_features
  aug.enum.map (fun p => resolveOne aug p.1 p.2 max_sent_back max_mentions_back)

/-! ## Cross-document linker (`src/combo/link/linker.py`) -/

/-- An entity-mention dict as read by `link_entities` (the fields it uses). -/
structure LinkEntMention where
  label : Option String
  type : Option String
  text : Option String
  resolved_entity_id : Option String
  entity_id : Option String
  mention_id : Option String
  doc_id : Option String
deriving DecidableEq, Repr

/-- A per-document entity group under `(type, best available key)`. -/
structure LinkGroup where
  type : String
  names : List (String × Nat)
  mention_ids : List String
  doc_id : Option String
deriving DecidableEq, Repr

/-- Bump `text`'s count in a `Counter` (first-occurrence order). -/
def counterAdd (names : List (String × Nat)) (text : String) : List (String × Nat) :=
  match names with
  | [] => [(text, 1)]
  | (t, n) :: rest =>
      if t = text then (t, n + 1) :: rest else (t, n) :: counterAdd rest text

/-- Add one mention to the per-document groups (insertion-ordered dict of
`(lab, key_val)` keys). -/
def groupAdd (groups : List ((String × String) × LinkGroup)) (k : String × String)
    (text : String) (mention_id : Option String) (doc_id : Option String) :
    List ((String × String) × LinkGroup) :=
  match groups with
  | [] =>
      [(k, { type := k.1, names := [(text, 1)],
             mention_ids := match mention_id with
               | some mid => if mid == "" then [] else [mid]
               | none => [],
             doc_id := doc_id })]
  | (k', g) :: rest =>
      if k' = k then
        (k', { g with names := counterAdd g.names text,
                      mention_ids := g.mention_ids ++
                        (match mention_id with
                         | some mid => if mid == "" then [] else [mid]
                         | none => []) }) :: rest
      else (k', g) :: groupAdd rest k text mention_id doc_id

/-- The per-document grouping pass of `link_entities`. -/
def buildGroups (ents : List LinkEntMention) : List ((String × String) × LinkGroup) :=
  ents.foldl
    (fun groups e =>
      let lab := strUpper (strOr e.label (strOr e.type ""))
      let text := strOr e.text (strOr e.label "")
      let key_val := strOr e.resolved_entity_id (strOr e.entity_id (normalize_label text))
      groupAdd groups (lab, key_val) text e.mention_id e.doc_id)
    []

/-- Display name: highest count first, ties broken lexicographically
(Python `sorted(names.items(), key=(-count, name))[0][0]`, or `''`). -/
def chooseName (names : List (String × Nat)) : String :=
  match pySort
      (fun a b => decide (b.2 < a.2) || (a.2 == b.2 && strLeB a.1 b.1)) names with
  | [] => ""
  | n :: _ => n.1

/-- One row of `linked.entities.jsonl`. -/
structure LinkedRow where
  doc_id : Option String
  canonical_id : String
  type : String
  name : String
  mention_ids : List String
  external_ids : List (String × String)
deriving DecidableEq, Repr

/-- The JSON object of a linked row (fields and external-id objects in
sorted key order). -/
def linkedRowJson (r : LinkedRow) : Json :=
  .jobj [("canonical_id", .jstr r.canonical_id),
         ("doc_id", optStrJson r.doc_id),
         ("external_ids", .jarr (r.external_ids.map
           (fun e => .jobj [("id", .jstr e.2), ("source", .jstr e.1)]))),
         ("mention_ids", .jarr (r.mention_ids.map .jstr)),
         ("name", .jstr r.name),
         ("type", .jstr r.type)]

/-- `wd.lookup` / `uei.lookup`: dict get on the strip-lowercased name. -/
def cacheLookup (cache : List (String × String)) (normalized_name : String) :
    Option String :=
  alookup cache (strLower (strTrim normalized_name))

/-- Process one document base: build groups, mint/reuse canonical IDs in the
registry, register aliases, attach adapter external IDs, and return the
updated registry with this base's output rows (sorted by their serialized
JSON, as `rows.sort(key=json.dumps(sort_keys=True))` does). -/
def processBase (st : RegState) (wd_cache uei_cache : List (String × String))
    (ents : List LinkEntMention) : RegState × List LinkedRow :=
  let step := fun (acc : RegState × List LinkedRow) (kg : (String × String) × LinkGroup) =>
    let (lab, key_val) := kg.1
    let g := kg.2
    let name := chooseName g.names
    let (can_id, st1) := get_or_create_canonical acc.1 lab key_val (some name)
    let st2 := add_alias st1 can_id name
    let norm_name := normalize_label name
    let (st3, ext1) :=
      if !wd_cache.isEmpty then
        match cacheLookup wd_cache norm_name with
        | some wdid =>
            if wdid == "" then (st2, [])
            else (add_external_id st2 can_id "wikidata" wdid, [("wikidata", wdid)])
        | none => (st2, [])
      else (st2, [])
    let (st4, ext2) :=
      if !uei_cache.isEmpty && (lab == "ORG" || lab == "ORGANIZATION") then
        match cacheLookup uei_cache norm_name with
        | some u =>
            if u == "" then (st3, [])
            else (add_external_id st3 can_id "uei" u, [("uei", u)])
        | none => (st3, [])
      else (st3, [])
    let row : LinkedRow :=
      { doc_id := g.doc_id, canonical_id := can_id, type := lab, name := name,
        mention_ids := pySort (fun a b => strLeB a b) g.mention_ids,
        external_ids := pySort
          (fun a b => strLtB a.1 b.1 || (a.1 == b.1 && strLeB a.2 b.2)) (ext1 ++ ext2) }
    (st4, acc.2 ++ [row])
  let (stF, rows) := (buildGroups ents).foldl step (st, [])
  (stF, pySort (fun a b =>
    strLeB (linkedRowJson a).dumps (linkedRowJson b).dumps) rows)

/-- `link_entities` over a batch of document bases.  The second component is
the final content of `linked.entities.jsonl`: the source calls
`_write_jsonl(out_path, rows)` with the same fixed path inside the per-base
loop, so each base's write replaces the previous content (`none` = never
written). -/
def link_entities (st : RegState) (wd_cache uei_cache : List (String × String))
    (docs : List (String × List LinkEntMention)) :
    RegState × Option (List LinkedRow) :=
  docs.foldl
    (fun acc bd =>
      let (st', rows) := processBase acc.1 wd_cache uei_cache bd.2
      (st', some rows))
    (st, none)

/-! ## CLI exit codes (`promote.main`, `linker.main`)

Both entry points run `argparse` (whose usage failures raise
`SystemExit(2)`, which `except Exception` does not intercept) and then wrap
the whole body in `try: ... except Exception: return 1`.  The effectful
steps are modelled as `Except`-valued parameters: `.error` is the step
raising. -/

/-- Outcome of `argparse.parse_args`. -/
inductive ParseOutcome (α : Type) where
  | ok (args : α)
  | usageExit
deriving DecidableEq, Repr

/-- `promote.main`: usage errors exit 2; inside the `try`, a raising schema
load, doctor run or promotion yields 1, a completed doctor run returns its
code, and a completed promotion returns 0. -/
def promote_main (parse : ParseOutcome Bool)
    (load_schema : Except String Unit) (run_doctor : Except String Int)
    (run_promote : Except String Unit) : Int :=
  match parse with
  | .usageExit => 2
  | .ok doctor =>
      match load_schema with
      | .error _ => 1
      | .ok _ =>
          if doctor then
            match run_doctor with
            | .ok code => code
            | .error _ => 1
          else
            match run_promote with
            | .ok _ => 0
            | .error _ => 1

/-- `linker.main`: usage errors exit 2; a raising `link_entities` (missing
input directory, registry I/O failure, ...) yields 1; success returns 0. -/
def linker_main (parse : ParseOutcome Unit) (run_link : Except String Unit) : Int :=
  match parse with
  | .usageExit => 2
  | .ok _ =>
      match run_link with
      | .ok _ => 0
      | .error _ => 1

/-- The number heuristic as the claim words it: ORG-typed candidates are
singular; a surface text ending in an `"s"` that is not part of a trailing
`"ss"` is plural; singular otherwise.  This is the *claim-side* definition,
written from the spec's words for comparison against the source's
`_estimate_number_for_candidate`. -/
def claimNumberEstimate (c : DerivedMention) : String :=
  if strUpper (c.type.getD "") == "ORG" then "singular"
  else if strEndsWith (strTrim c.text) "s" && !strEndsWith (strTrim c.text) "ss" then
    "plural"
  else "singular"

/-! ## Concrete fixtures

Small concrete inputs used to evaluate the embedded code at the spec's own
test points. -/

/-- A relation mention with confidence 0.9 from document `d1`, sentence `s1`. -/
def rmHigh : RelMention :=
  { mention_id := some "mr1", predicate := some "P", subj_canonical_id := some "s",
    obj_canonical_id := some "o", subj_labels := ["L"], obj_labels := ["L"],
    doc_id := .sstr "d1", sent_id := .sstr "s1", span := [0, 1],
    confidence := some (mkRat 9 10), props := [] }

/-- The same mention with its `sent_id` the integer `0` (as the coref stage
defaults a missing `sent_id` to `0`). -/
def rmSentZero : RelMention := { rmHigh with sent_id := .sint 0 }

/-- A minimal schema with one entity type `T` (no required fields, no merge
keys, no constraints). -/
def seSimple : List (String × EntitySchema) :=
  [("T", { required := [], key := [], value_range := none })]

/-- A minimal relation schema allowing predicate `P` with wildcard
domain/range. -/
def srSimple : List (String × RelRule) :=
  [("P", { domain := some ["*"], range := some ["*"] })]

/-- A linked canonical entity of type `T`. -/
def ceSimple : CanonEntity :=
  { canonical_id := some "s", type := some "T", labels := some ["L"],
    key := some [], props := some [] }

/-- A canonical index resolving both `s` and `o` to `ceSimple`. -/
def canonSimple : String → Option CanonEntity :=
  fun c => if c = "s" || c = "o" then some ceSimple else none

/-- The coref test mention `"battery packs"(PRODUCT, sent 0)`. -/
def cmBatteryPacks : CorefMention :=
  { text := "battery packs", type := some "PRODUCT", sent_id := some 0,
    number := none, gender := none, is_pronoun := none, pronoun_form := none,
    mention_id := some "m1", id := none, doc_id := some "d", chunk_id := none,
    start := none, stop := none }

/-- The coref test mention `"They"(sent 1)`. -/
def cmThey : CorefMention :=
  { cmBatteryPacks with
      text := "They", type := none, sent_id := some 1, mention_id := some "m2" }

/-- A derived candidate whose text is `"glass"` (PRODUCT): text ends in a
trailing `"ss"`. -/
def candGlass : DerivedMention :=
  { text := "glass", type := some "PRODUCT", is_pronoun := false, pronoun_form := none,
    number := "unknown", gender := "unknown", sent_id := 0, mention_id := "g", id := none }

/-- A relation mention with no predicate (skipped by `_bucket_relations`). -/
def rmNoPred : RelMention := { rmHigh with predicate := none }

/-- An `"ACME"` entity mention of one document, for the linker. -/
def lmAcme (d mid : String) : LinkEntMention :=
  { label := none, type := some "ORG", text := some "ACME", resolved_entity_id := none,
    entity_id := none, mention_id := some mid, doc_id := some d }

/-! ## Order and sorting lemmas -/

theorem insertAfterTies_perm (le : α → α → Bool) (a : α) (l : List α) :
    List.Perm (insertAfterTies le a l) (a :: l) := by
  induction l with
  | nil => exact List.Perm.refl _
  | cons b bs ih =>
      cases h : le b a with
      | true =>
          simp only [insertAfterTies, h, if_pos]
          exact (ih.cons b).trans (List.Perm.swap a b bs)
      | false =>
          simp only [insertAfterTies, h, Bool.false_eq_true, if_neg, not_false_iff]
          exact List.Perm.refl _

theorem pySort_foldl_perm (le : α → α → Bool) (l : List α) :
    ∀ acc : List α,
      List.Perm (l.foldl (fun acc a => insertAfterTies le a acc) acc) (acc ++ l) := by
  induction l with
  | nil => intro acc; simp
  | cons a as ih =>
      intro acc
      simp only [List.foldl_cons]
      refine (ih _).trans ?_
      refine ((insertAfterTies_perm le a acc).append_right as).trans ?_
      exact List.perm_middle.symm

theorem pySort_perm (le : α → α → Bool) (l : List α) : List.Perm (pySort le l) l := by
  simpa using pySort_foldl_perm le l []

theorem mem_pySort {le : α → α → Bool} {l : List α} {x : α} :
    x ∈ pySort le l ↔ x ∈ l :=
  (pySort_perm le l).mem_iff

theorem insertAfterTies_pairwise (le : α → α → Bool)
    (total : ∀ a b, le a b = true ∨ le b a = true)
    (htrans : ∀ a b c, le a b = true → le b c = true → le a c = true)
    (a : α) (l : List α) (hl : l.Pairwise (fun x y => le x y = true)) :
    (insertAfterTies le a l).Pairwise (fun x y => le x y = true) := by
  induction l with
  | nil => simp [insertAfterTies]
  | cons b bs ih =>
      rcases List.pairwise_cons.mp hl with ⟨hb, hbs⟩
      cases h : le b a with
      | true =>
          simp only [insertAfterTies, h, if_pos]
          refine List.pairwise_cons.mpr ⟨?_, ih hbs⟩
          intro x hx
          rcases List.mem_cons.mp ((insertAfterTies_perm le a bs).mem_iff.mp hx) with
            hxa | hxbs
          · rw [hxa]; exact h
          · exact hb x hxbs
      | false =>
          simp only [insertAfterTies, h, Bool.false_eq_true, if_neg, not_false_iff]
          have hab : le a b = true := by
            rcases total a b with h' | h'
            · exact h'
            · rw [h] at h'; exact absurd h' (by simp)
          refine List.pairwise_cons.mpr ⟨?_, hl⟩
          intro x hx
          rcases List.mem_cons.mp hx with hxb | hxbs
          · rw [hxb]; exact hab
          · exact htrans a b x hab (hb x hxbs)

theorem pySort_pairwise (le : α → α → Bool)
    (total : ∀ a b, le a b = true ∨ le b a = true)
    (htrans : ∀ a b c, le a b = true → le b c = true → le a c = true)
    (l : List α) : (pySort le l).Pairwise (fun x y => le x y = true) := by
  suffices H : ∀ acc : List α, acc.Pairwise (fun x y => le x y = true) →
      (l.foldl (fun acc a => insertAfterTies le a acc) acc).Pairwise
        (fun x y => le x y = true) from H [] (by simp)
  induction l with
  | nil => intro acc h; simpa using h
  | cons a as ih =>
      intro acc h
      simp only [List.foldl_cons]
      exact ih _ (insertAfterTies_pairwise le total htrans a acc h)

theorem pySort_eq_of_perm (le : α → α → Bool)
    (total : ∀ a b, le a b = true ∨ le b a = true)
    (htrans : ∀ a b c, le a b = true → le b c = true → le a c = true)
    (hanti : ∀ a b, le a b = true → le b a = true → a = b)
    {l₁ l₂ : List α} (h : List.Perm l₁ l₂) : pySort le l₁ = pySort le l₂ := by
  haveI : IsAntisymm α (fun a b => le a b = true) := ⟨hanti⟩
  exact List.eq_of_perm_of_sorted
    ((pySort_perm le l₁).trans (h.trans (pySort_perm le l₂).symm))
    (pySort_pairwise le total htrans l₁) (pySort_pairwise le total htrans l₂)

theorem map_insertAfterTies (f : α → β) (le : α → α → Bool) (le' : β → β → Bool)
    (hle : ∀ a b, le a b = le' (f a) (f b)) (a : α) (l : List α) :
    (insertAfterTies le a l).map f = insertAfterTies le' (f a) (l.map f) := by
  induction l with
  | nil => simp [insertAfterTies]
  | cons b bs ih =>
      simp only [insertAfterTies, List.map_cons, hle b a]
      cases h : le' (f b) (f a) with
      | true => simp [h, ih]
      | false => simp [h]

theorem map_pySort (f : α → β) (le : α → α → Bool) (le' : β → β → Bool)
    (hle : ∀ a b, le a b = le' (f a) (f b)) (l : List α) :
    (pySort le l).map f = pySort le' (l.map f) := by
  suffices H : ∀ acc : List α,
      (l.foldl (fun acc a => insertAfterTies le a acc) acc).map f =
        (l.map f).foldl (fun acc b => insertAfterTies le' b acc) (acc.map f) by
    simpa [pySort] using H []
  induction l with
  | nil => intro acc; simp
  | cons a as ih =>
      intro acc
      simp only [List.foldl_cons, List.map_cons]
      rw [← map_insertAfterTies f le le' hle, ih]

theorem charListLe_cons_iff {x y : Char} {xs ys : List Char} :
    charListLe (x :: xs) (y :: ys) = true ↔
      x.toNat < y.toNat ∨ (x.toNat = y.toNat ∧ charListLe xs ys = true) := by
  simp only [charListLe]
  split_ifs with h1 h2
  · simp [h1]
  · simp [h1, h2]
  · simp [h1, h2]

theorem charListLe_total (a b : List Char) :
    charListLe a b = true ∨ charListLe b a = true := by
  induction a generalizing b with
  | nil => left; rfl
  | cons x xs ih =>
      cases b with
      | nil => right; rfl
      | cons y ys =>
          rcases Nat.lt_trichotomy x.toNat y.toNat with h | h | h
          · left; exact charListLe_cons_iff.mpr (Or.inl h)
          · rcases ih ys with h2 | h2
            · left; exact charListLe_cons_iff.mpr (Or.inr ⟨h, h2⟩)
            · right; exact charListLe_cons_iff.mpr (Or.inr ⟨h.symm, h2⟩)
          · right; exact charListLe_cons_iff.mpr (Or.inl h)

theorem charListLe_trans :
    ∀ (a b c : List Char), charListLe a b = true → charListLe b c = true →
      charListLe a c = true := by
  intro a
  induction a with
  | nil => intro b c _ _; rfl
  | cons x xs ih =>
      intro b c hab hbc
      cases b with
      | nil => simp [charListLe] at hab
      | cons y ys =>
          cases c with
          | nil => simp [charListLe] at hbc
          | cons z zs =>
              rcases charListLe_cons_iff.mp hab with h1 | ⟨h1, h1'⟩
              · rcases charListLe_cons_iff.mp hbc with h2 | ⟨h2, h2'⟩
                · exact charListLe_cons_iff.mpr (Or.inl (by omega))
                · exact charListLe_cons_iff.mpr (Or.inl (by omega))
              · rcases charListLe_cons_iff.mp hbc with h2 | ⟨h2, h2'⟩
                · exact charListLe_cons_iff.mpr (Or.inl (by omega))
                · exact charListLe_cons_iff.mpr (Or.inr ⟨by omega, ih ys zs h1' h2'⟩)

theorem charListLe_antisymm :
    ∀ (a b : List Char), charListLe a b = true → charListLe b a = true → a = b := by
  intro a
  induction a with
  | nil =>
      intro b _ hba
      cases b with
      | nil => rfl
      | cons y ys => simp [charListLe] at hba
  | cons x xs ih =>
      intro b hab hba
      cases b with
      | nil => simp [charListLe] at hab
      | cons y ys =>
          rcases charListLe_cons_iff.mp hab with h1 | ⟨h1, h1'⟩
          · rcases charListLe_cons_iff.mp hba with h2 | ⟨h2, h2'⟩
            · omega
            · omega
          · rcases charListLe_cons_iff.mp hba with h2 | ⟨h2, h2'⟩
            · omega
            · have hxy : x = y := Char.ext (UInt32.toNat.inj h1)
              rw [hxy, ih ys h1' h2']

theorem strLeB_total (a b : String) : strLeB a b = true ∨ strLeB b a = true :=
  charListLe_total a.data b.data

theorem strLeB_trans (a b c : String) (h1 : strLeB a b = true) (h2 : strLeB b c = true) :
    strLeB a c = true :=
  charListLe_trans a.data b.data c.data h1 h2

theorem strLeB_antisymm (a b : String) (h1 : strLeB a b = true) (h2 : strLeB b a = true) :
    a = b := by
  have h := charListLe_antisymm a.data b.data h1 h2
  cases a
  cases b
  exact congrArg String.mk h

/-! ## Registry lemmas -/

theorem insertAliasOrIgnore_idem (rows : List (String × String)) (r : String × String) :
    insertAliasOrIgnore (insertAliasOrIgnore rows r) r = insertAliasOrIgnore rows r := by
  unfold insertAliasOrIgnore
  by_cases h : rows.any (fun q => q == r)
  · simp [h]
  · simp [h, List.any_append]

/-- The row `get_or_create_canonical` builds on a registry miss. -/
def mintedRow (t l : String) (p : Option String) : EntityRow :=
  { canonical_id := deterministic_id (strUpper t) (normalize_label l),
    type := strUpper t, normalized_label := normalize_label l, primary_name := p }

/-- The store `get_or_create_canonical` leaves behind on a registry miss. -/
def mintedState (st : RegState) (t l : String) (p : Option String) : RegState :=
  { st with
    entities := insertEntityOrIgnore st.entities (mintedRow t l p),
    aliases :=
      match p with
      | some pn =>
          if pn == "" then st.aliases
          else insertAliasOrIgnore st.aliases
            (deterministic_id (strUpper t) (normalize_label l), pn)
      | none => st.aliases }

/-- Unfolding `get_or_create_canonical` on a registry hit. -/
theorem goc_eq_found {st : RegState} {t l : String} {p : Option String} {r : EntityRow}
    (hf : st.entities.find? (fun q => q.type == strUpper t &&
        q.normalized_label == normalize_label l) = some r) :
    get_or_create_canonical st t l p = (r.canonical_id, st) := by
  simp only [get_or_create_canonical, hf]

/-- Unfolding `get_or_create_canonical` on a registry miss. -/
theorem goc_eq_notfound {st : RegState} {t l : String} {p : Option String}
    (hf : st.entities.find? (fun q => q.type == strUpper t &&
        q.normalized_label == normalize_label l) = none) :
    get_or_create_canonical st t l p =
      (deterministic_id (strUpper t) (normalize_label l), mintedState st t l p) := by
  cases p with
  | none => simp only [get_or_create_canonical, hf, mintedState, mintedRow]
  | some pn => simp only [get_or_create_canonical, hf, mintedState, mintedRow]

/-- Record equality from field equalities (structure eta). -/
theorem regstate_eq_of_fields {S : RegState} {E : List EntityRow}
    {A : List (String × String)} (hE : E = S.entities) (hA : A = S.aliases) :
    ({ entities := E, aliases := A, external_ids := S.external_ids } : RegState) = S := by
  rw [hE, hA]

/-- **C1.** For every store satisfying the registry invariant (every row
minted by the registry itself), `get_or_create_canonical` returns exactly
the deterministic UUID of the normalized inputs `upper(type)` and
`trim+lowercase(label)` — a pure function of those inputs, independent of
the store's contents and hence of insertion order, with no randomness;
calling it a second time with the same inputs returns the same ID and
leaves the store untouched (no second row); the invariant is preserved; and
at the spec's concrete instance, `("PERSON", "jane doe")` and
`("ORG", "jane doe")` receive different IDs. -/
theorem get_or_create_canonical_deterministic (st : RegState) (t l : String)
    (p : Option String) (hInv : RegInv st) :
    (get_or_create_canonical st t l p).1 =
        deterministic_id (strUpper t) (normalize_label l) ∧
      get_or_create_canonical (get_or_create_canonical st t l p).2 t l p =
        get_or_create_canonical st t l p ∧
      RegInv (get_or_create_canonical st t l p).2 ∧
      deterministic_id "PERSON" "jane doe" ≠ deterministic_id "ORG" "jane doe" := by
  have hconc : deterministic_id "PERSON" "jane doe" ≠ deterministic_id "ORG" "jane doe" := by
    decide
  cases hf : st.entities.find? (fun q => q.type == strUpper t &&
      q.normalized_label == normalize_label l) with
  | some r =>
      have hp := List.find?_some hf
      have hm := List.mem_of_find?_eq_some hf
      simp only [Bool.and_eq_true, beq_iff_eq] at hp
      have hfst : get_or_create_canonical st t l p = (r.canonical_id, st) := goc_eq_found hf
      refine ⟨?_, ?_, ?_, hconc⟩
      · rw [hfst, hInv r hm, hp.1, hp.2]
      · rw [hfst]; exact goc_eq_found hf
      · rw [hfst]; exact hInv
  | none =>
      have hmain := goc_eq_notfound (p := p) hf
      refine ⟨by rw [hmain], ?_, ?_, hconc⟩
      · -- idempotence on a miss
        rw [hmain]
        by_cases hc : st.entities.any (fun q =>
            q.canonical_id == (mintedRow t l p).canonical_id ||
              (q.type == (mintedRow t l p).type &&
                q.normalized_label == (mintedRow t l p).normalized_label))
        · -- the insert was ignored: the entity table is unchanged
          have hent : insertEntityOrIgnore st.entities (mintedRow t l p) = st.entities := by
            unfold insertEntityOrIgnore
            rw [if_pos hc]
          have hf2 : (mintedState st t l p).entities.find?
              (fun q => q.type == strUpper t &&
                q.normalized_label == normalize_label l) = none := by
            show (insertEntityOrIgnore st.entities (mintedRow t l p)).find? _ = none
            rw [hent]
            exact hf
          rw [goc_eq_notfound hf2]
          refine congrArg (Prod.mk _) ?_
          have hE : insertEntityOrIgnore (mintedState st t l p).entities (mintedRow t l p) =
              (mintedState st t l p).entities := by
            show insertEntityOrIgnore (insertEntityOrIgnore st.entities (mintedRow t l p))
              (mintedRow t l p) = insertEntityOrIgnore st.entities (mintedRow t l p)
            rw [hent]
            exact hent
          cases p with
          | none => exact regstate_eq_of_fields hE rfl
          | some pn =>
              by_cases hpn : (pn == "") = true
              · refine regstate_eq_of_fields hE ?_
                show (if pn == "" then (mintedState st t l (some pn)).aliases
                    else insertAliasOrIgnore (mintedState st t l (some pn)).aliases
                      (deterministic_id (strUpper t) (normalize_label l), pn)) =
                  (mintedState st t l (some pn)).aliases
                rw [if_pos hpn]
              · have hSal : (mintedState st t l (some pn)).aliases =
                    insertAliasOrIgnore st.aliases
                      (deterministic_id (strUpper t) (normalize_label l), pn) := by
                  show (if pn == "" then st.aliases
                      else insertAliasOrIgnore st.aliases
                        (deterministic_id (strUpper t) (normalize_label l), pn)) = _
                  rw [if_neg hpn]
                refine regstate_eq_of_fields hE ?_
                show (if pn == "" then (mintedState st t l (some pn)).aliases
                    else insertAliasOrIgnore (mintedState st t l (some pn)).aliases
                      (deterministic_id (strUpper t) (normalize_label l), pn)) =
                  (mintedState st t l (some pn)).aliases
                rw [if_neg hpn, hSal, insertAliasOrIgnore_idem]
        · -- the row was appended: the second call finds it
          have hent : insertEntityOrIgnore st.entities (mintedRow t l p) =
              st.entities ++ [mintedRow t l p] := by
            unfold insertEntityOrIgnore
            rw [if_neg hc]
          have hf2 : (mintedState st t l p).entities.find?
              (fun q => q.type == strUpper t &&
                q.normalized_label == normalize_label l) = some (mintedRow t l p) := by
            show (insertEntityOrIgnore st.entities (mintedRow t l p)).find? _ = _
            rw [hent, List.find?_append, hf]
            simp [mintedRow]
          rw [goc_eq_found hf2]
          rfl
      · -- invariant preservation on a miss
        rw [hmain]
        intro r hr
        have hr' : r ∈ insertEntityOrIgnore st.entities (mintedRow t l p) := hr
        unfold insertEntityOrIgnore at hr'
        by_cases hc : st.entities.any (fun q =>
            q.canonical_id == (mintedRow t l p).canonical_id ||
              (q.type == (mintedRow t l p).type &&
                q.normalized_label == (mintedRow t l p).normalized_label))
        · rw [if_pos hc] at hr'
          exact hInv r hr'
        · rw [if_neg hc] at hr'
          rcases List.mem_append.mp hr' with h | h
          · exact hInv r h
          · rw [List.mem_singleton.mp h]
            rfl

/-- Closed witness for C1 at the empty store and the spec's own inputs. -/
theorem get_or_create_canonical_deterministic_witness :
    (get_or_create_canonical RegState.empty "PERSON" "jane doe" none).1 =
        deterministic_id (strUpper "PERSON") (normalize_label "jane doe") ∧
      get_or_create_canonical
          (get_or_create_canonical RegState.empty "PERSON" "jane doe" none).2
          "PERSON" "jane doe" none =
        get_or_create_canonical RegState.empty "PERSON" "jane doe" none ∧
      RegInv (get_or_create_canonical RegState.empty "PERSON" "jane doe" none).2 ∧
      deterministic_id "PERSON" "jane doe" ≠ deterministic_id "ORG" "jane doe" :=
  get_or_create_canonical_deterministic RegState.empty "PERSON" "jane doe" none
    (fun r hr => absurd hr (List.not_mem_nil r))

/-- **C5.** For two distinct canonical entities and a `(source, external_id)`
pair new to the store, attaching the pair to both entities via
`add_external_id` leaves exactly one row for that pair: the second attempt
is a no-op (insert-or-ignore under the unique `(source, external_id)`
constraint), and `add_external_id` with an empty `external_id` is also a
no-op. -/
theorem add_external_id_unique (st : RegState) (c1 c2 s e : String)
    (he : e ≠ "") (hnone : countExternalPair st s e = 0) :
    countExternalPair (add_external_id (add_external_id st c1 s e) c2 s e) s e = 1 ∧
      add_external_id (add_external_id st c1 s e) c2 s e = add_external_id st c1 s e ∧
      ∀ (st' : RegState) (c : String), add_external_id st' c s "" = st' := by
  have he' : ¬((e == "") = true) := by simp [he]
  have hall : ∀ r ∈ st.external_ids, ¬((r.2.1 == s && r.2.2 == e) = true) := by
    intro r hr hP
    have hmem : r ∈ st.external_ids.filter (fun r => r.2.1 == s && r.2.2 == e) :=
      List.mem_filter.mpr ⟨hr, hP⟩
    have hnil : st.external_ids.filter (fun r => r.2.1 == s && r.2.2 == e) = [] :=
      List.length_eq_zero.mp hnone
    rw [hnil] at hmem
    exact absurd hmem (List.not_mem_nil r)
  have hany : (st.external_ids.any (fun r => r.2.1 == s && r.2.2 == e)) = false := by
    rw [List.any_eq_false]
    exact hall
  have h1 : add_external_id st c1 s e =
      { st with external_ids := st.external_ids ++ [(c1, s, e)] } := by
    unfold add_external_id
    rw [if_neg he', if_neg (by simp [hany])]
  have h2 : add_external_id (add_external_id st c1 s e) c2 s e =
      add_external_id st c1 s e := by
    rw [h1]
    unfold add_external_id
    rw [if_neg he', if_pos (by simp [List.any_append])]
  refine ⟨?_, h2, ?_⟩
  · rw [h2, h1]
    show ((st.external_ids ++ [(c1, s, e)]).filter
      (fun r => r.2.1 == s && r.2.2 == e)).length = 1
    have hnil : st.external_ids.filter (fun r => r.2.1 == s && r.2.2 == e) = [] :=
      List.length_eq_zero.mp hnone
    rw [List.filter_append, hnil]
    simp
  · intro st' c
    rfl

/-- Closed witness for C5 at the empty store. -/
theorem add_external_id_unique_witness :
    countExternalPair (add_external_id
        (add_external_id RegState.empty "c1" "wikidata" "Q1") "c2" "wikidata" "Q1")
        "wikidata" "Q1" = 1 ∧
      add_external_id (add_external_id RegState.empty "c1" "wikidata" "Q1")
          "c2" "wikidata" "Q1" =
        add_external_id RegState.empty "c1" "wikidata" "Q1" ∧
      ∀ (st' : RegState) (c : String), add_external_id st' c "wikidata" "" = st' :=
  add_external_id_unique RegState.empty "c1" "c2" "wikidata" "Q1" (by decide) rfl

/-! ## Promotion-gate lemmas -/

theorem below_ne_subj (s : String) : "below_threshold" ≠ "missing_keys:subject:" ++ s := by
  intro h
  have h2 := congrArg String.length h
  rw [String.length_append] at h2
  have h3 : ("missing_keys:subject:" : String).length = 21 := rfl
  have h4 : ("below_threshold" : String).length = 15 := rfl
  omega

theorem below_ne_obj (s : String) : "below_threshold" ≠ "missing_keys:object:" ++ s := by
  intro h
  have h2 := congrArg String.length h
  rw [String.length_append] at h2
  have h3 : ("missing_keys:object:" : String).length = 20 := rfl
  have h4 : ("below_threshold" : String).length = 15 := rfl
  omega

set_option maxHeartbeats 2000000 in
/-- Membership of `"below_threshold"` in the raw reason list is exactly the
failure of the AND-gate `avg_confidence ≥ conf_thr ∧ ev_count ≥ min_evidence`. -/
theorem below_threshold_mem_iff (se : List (String × EntitySchema))
    (sr : List (String × RelRule)) (canon : String → Option CanonEntity)
    (conf_thr : ℚ) (min_ev : Int) (sid pred oid : String) (group : List RelMention) :
    ("below_threshold" ∈ relGroupReasons se sr canon conf_thr min_ev sid pred oid group) ↔
      ¬((_aggregate_relation_group group).avg_confidence ≥ conf_thr ∧
        ((_aggregate_relation_group group).ev_count : Int) ≥ min_ev) := by
  cases hcs : canon sid <;> cases hco : canon oid <;> cases hcr : alookup sr pred <;>
    · simp only [relGroupReasons, hcs, hco, hcr, List.mem_append]
      split_ifs <;>
        simp_all [below_ne_subj, below_ne_obj, Bool.and_eq_true, decide_eq_true_iff] <;>
        try ((intro hle; rcases ‹_ ∨ _› with hx | hx) <;> first | exact hx | linarith)

/-- Unfolding `evalRelGroup` when some reason triggered (the quarantine
row). -/
theorem evalRelGroup_eq_inr {se : List (String × EntitySchema)}
    {sr : List (String × RelRule)} {canon : String → Option CanonEntity}
    {thr : ℚ} {mev : Int} {sv sid pred oid : String} {group : List RelMention}
    (h : (relGroupReasons se sr canon thr mev sid pred oid group).isEmpty = false) :
    evalRelGroup se sr canon thr mev sv sid pred oid group =
      .inr { subj_id := sid, predicate := pred, obj_id := oid,
             group_key := [sid, pred, oid],
             evidence := _aggregate_relation_group group,
             policy_conf_thr := thr, policy_min_ev := mev,
             reasons := pySort (fun a b => strLeB a b)
               (relGroupReasons se sr canon thr mev sid pred oid group).dedup,
             examples := ((sortGroupByKey group).take 3).map
               (fun m => { doc_id := m.doc_id, sent_id := m.sent_id }),
             kind := "relation", schema_version := sv } := by
  unfold evalRelGroup
  rw [if_neg (by simp [h])]

/-- Unfolding `evalRelGroup` when no reason triggered (the promoted row). -/
theorem evalRelGroup_eq_inl {se : List (String × EntitySchema)}
    {sr : List (String × RelRule)} {canon : String → Option CanonEntity}
    {thr : ℚ} {mev : Int} {sv sid pred oid : String} {group : List RelMention}
    (h : (relGroupReasons se sr canon thr mev sid pred oid group).isEmpty = true) :
    evalRelGroup se sr canon thr mev sv sid pred oid group =
      .inl { subj_id := sid,
             subj_labels := promotedLabels canon sid,
             predicate := pred,
             obj_id := oid,
             obj_labels := promotedLabels canon oid,
             props := (firstProps group).getD [],
             evidence := _aggregate_relation_group group,
             policy_conf_thr := thr, policy_min_ev := mev,
             schema_version := sv } := by
  unfold evalRelGroup
  rw [if_pos h]

/-- **C2.** The evidence gate is an AND: for every relation group the reason
`"below_threshold"` is recorded iff `avg_confidence ≥ conf_thr` and
`ev_count ≥ min_evidence` do not both hold; membership carries unchanged
into a quarantined row's sorted-deduplicated reason set; and at the spec's
concrete instance — a group with `avg_confidence = 0.9` but `ev_count = 1`
under `min_evidence = 2` — the group is quarantined with a reason set
containing `"below_threshold"`, even though its confidence 0.9 alone would
pass the 0.7 threshold. -/
theorem promote_threshold_and_gate (se : List (String × EntitySchema))
    (sr : List (String × RelRule)) (canon : String → Option CanonEntity)
    (conf_thr : ℚ) (min_ev : Int) (sv sid pred oid : String) (group : List RelMention) :
    (("below_threshold" ∈ relGroupReasons se sr canon conf_thr min_ev sid pred oid group) ↔
        ¬((_aggregate_relation_group group).avg_confidence ≥ conf_thr ∧
          ((_aggregate_relation_group group).ev_count : Int) ≥ min_ev)) ∧
      (∀ q, evalRelGroup se sr canon conf_thr min_ev sv sid pred oid group = .inr q →
        ("below_threshold" ∈ q.reasons ↔
          "below_threshold" ∈ relGroupReasons se sr canon conf_thr min_ev sid pred oid group)) ∧
      (∃ q, evalRelGroup seSimple srSimple canonSimple (mkRat 7 10) 2 "v1" "s" "P" "o"
          [rmHigh] = .inr q ∧ "below_threshold" ∈ q.reasons) ∧
      (_aggregate_relation_group [rmHigh]).avg_confidence = mkRat 9 10 ∧
      (_aggregate_relation_group [rmHigh]).ev_count = 1 ∧
      (_aggregate_relation_group [rmHigh]).avg_confidence ≥ mkRat 7 10 := by
  refine ⟨below_threshold_mem_iff se sr canon conf_thr min_ev sid pred oid group,
    ?_, ?_, by decide, by decide, by decide⟩
  · intro q heq
    by_cases hemp : (relGroupReasons se sr canon conf_thr min_ev sid pred oid group).isEmpty
    · rw [evalRelGroup_eq_inl hemp] at heq
      cases heq
    · rw [evalRelGroup_eq_inr (Bool.not_eq_true _ ▸ hemp)] at heq
      have hq := (Sum.inr.injEq _ _).mp heq.symm
      rw [hq]
      show "below_threshold" ∈ pySort (fun a b => strLeB a b) _ ↔ _
      rw [mem_pySort, List.mem_dedup]
  · have hne : (relGroupReasons seSimple srSimple canonSimple (mkRat 7 10) 2
        "s" "P" "o" [rmHigh]).isEmpty = false := by decide
    exact ⟨_, evalRelGroup_eq_inr hne, by decide⟩

/-- Closed witness for C2: membership transfer into the concrete quarantined
row's reason set. -/
theorem promote_threshold_and_gate_witness :
    ("below_threshold" ∈ pySort (fun a b => strLeB a b)
        (relGroupReasons seSimple srSimple canonSimple (mkRat 7 10) 2
          "s" "P" "o" [rmHigh]).dedup ↔
      "below_threshold" ∈ relGroupReasons seSimple srSimple canonSimple (mkRat 7 10) 2
        "s" "P" "o" [rmHigh]) ∧
    "below_threshold" ∈ relGroupReasons seSimple srSimple canonSimple (mkRat 7 10) 2
      "s" "P" "o" [rmHigh] :=
  ⟨(promote_threshold_and_gate seSimple srSimple canonSimple (mkRat 7 10) 2
      "v1" "s" "P" "o" [rmHigh]).2.1 _ (evalRelGroup_eq_inr (by decide)),
   by decide⟩

/-- **C3 counterexample.** A group of 5 mentions that all share one
`sent_id` — the integer `0`, which the coref stage produces for missing
sentence ids — has `ev_count = 0`, although the number of distinct
(non-null) sentence-id values among the mentions is 1: the claim's
"a group of 5 mentions all sharing one sent_id has ev_count == 1" fails,
because `_aggregate_relation_group` drops falsy (`None`/`0`/`""`) sent_ids
before counting. -/
theorem ev_count_sent_zero_counterexample :
    (_aggregate_relation_group
        [rmSentZero, rmSentZero, rmSentZero, rmSentZero, rmSentZero]).ev_count = 0 ∧
      ((([rmSentZero, rmSentZero, rmSentZero, rmSentZero, rmSentZero].map
          (fun m => m.sent_id)).filter (fun v => v != SVal.snull)).dedup).length = 1 ∧
      (0 : Nat) ≠ 1 := by
  decide

/-- **C3 (amended).** For every relation group, `ev_count` equals the number
of distinct stringified *truthy* `sent_id` values among the group's mentions
(so repeated extraction from the same sentence counts once, and mentions
with a missing, null, zero or empty `sent_id` contribute no evidence), and
`doc_count` likewise for truthy `doc_id`s; `ev_count` never exceeds the raw
mention count; and a group of 5 mentions all sharing the truthy sent_id
`"s1"` has `ev_count = 1`, not 5. -/
theorem ev_count_distinct_sentences (group : List RelMention) :
    (_aggregate_relation_group group).ev_count =
        ((((group.map (fun m => m.sent_id)).filter SVal.truthy).map SVal.toStr).dedup).length ∧
      (_aggregate_relation_group group).doc_count =
        ((((group.map (fun m => m.doc_id)).filter SVal.truthy).map SVal.toStr).dedup).length ∧
      (_aggregate_relation_group group).ev_count ≤ group.length ∧
      (_aggregate_relation_group [rmHigh, rmHigh, rmHigh, rmHigh, rmHigh]).ev_count = 1 := by
  refine ⟨(pySort_perm _ _).length_eq, (pySort_perm _ _).length_eq, ?_, by decide⟩
  calc (_aggregate_relation_group group).ev_count
      = ((((group.map (fun m => m.sent_id)).filter SVal.truthy).map
          SVal.toStr).dedup).length := (pySort_perm _ _).length_eq
    _ ≤ ((((group.map (fun m => m.sent_id)).filter SVal.truthy).map
          SVal.toStr)).length := (List.dedup_sublist _).length_le
    _ = (((group.map (fun m => m.sent_id)).filter SVal.truthy)).length :=
          List.length_map _ _
    _ ≤ ((group.map (fun m => m.sent_id))).length := List.length_filter_le _ _
    _ = group.length := List.length_map _ _

/-! ## Relation-loop lemmas -/

theorem processRelGroups_foldl (se : List (String × EntitySchema))
    (sr : List (String × RelRule)) (canon : String → Option CanonEntity)
    (thr : ℚ) (mev : Int) (sv : String)
    (l : List (GroupKey × List RelMention))
    (acc : List PromotedRel × List QuarantinedRel) :
    l.foldl (fun acc kg =>
        match evalRelGroup se sr canon thr mev sv kg.1.1 kg.1.2.1 kg.1.2.2 kg.2 with
        | .inl p => (acc.1 ++ [p], acc.2)
        | .inr q => (acc.1, acc.2 ++ [q])) acc =
      (acc.1 ++ l.filterMap (fun kg =>
          (evalRelGroup se sr canon thr mev sv kg.1.1 kg.1.2.1 kg.1.2.2 kg.2).getLeft?),
       acc.2 ++ l.filterMap (fun kg =>
          (evalRelGroup se sr canon thr mev sv kg.1.1 kg.1.2.1 kg.1.2.2 kg.2).getRight?)) := by
  induction l generalizing acc with
  | nil => simp
  | cons kg l ih =>
      simp only [List.foldl_cons, List.filterMap_cons]
      cases heval : evalRelGroup se sr canon thr mev sv kg.1.1 kg.1.2.1 kg.1.2.2 kg.2 with
      | inl p => simp [heval, ih, List.append_assoc]
      | inr q => simp [heval, ih, List.append_assoc]

theorem processRelGroups_eq (se : List (String × EntitySchema))
    (sr : List (String × RelRule)) (canon : String → Option CanonEntity)
    (thr : ℚ) (mev : Int) (sv : String) (buckets : List (GroupKey × List RelMention)) :
    processRelGroups se sr canon thr mev sv buckets =
      ((pySort (fun a b => lex3Le a.1 b.1) buckets).filterMap (fun kg =>
          (evalRelGroup se sr canon thr mev sv kg.1.1 kg.1.2.1 kg.1.2.2 kg.2).getLeft?),
       (pySort (fun a b => lex3Le a.1 b.1) buckets).filterMap (fun kg =>
          (evalRelGroup se sr canon thr mev sv kg.1.1 kg.1.2.1 kg.1.2.2 kg.2).getRight?)) := by
  unfold processRelGroups
  rw [processRelGroups_foldl]
  simp

theorem bucketInsert_keys (bs : List (GroupKey × List RelMention)) (k : GroupKey)
    (m : RelMention) :
    (bucketInsert bs k m).map Prod.fst =
      if k ∈ bs.map Prod.fst then bs.map Prod.fst else bs.map Prod.fst ++ [k] := by
  induction bs with
  | nil => simp [bucketInsert]
  | cons hd rest ih =>
      obtain ⟨k', g⟩ := hd
      by_cases hk : k' = k
      · subst hk
        simp [bucketInsert]
      · have hk' : ¬(k = k') := fun h => hk h.symm
        simp only [bucketInsert, if_neg hk, List.map_cons, ih]
        by_cases hmem : k ∈ rest.map Prod.fst
        · simp [hmem, List.mem_cons, hk']
        · simp [hmem, List.mem_cons, hk']

theorem bucket_foldl_keys_nodup (ms : List RelMention) :
    ∀ (acc : List (GroupKey × List RelMention) × Nat), (acc.1.map Prod.fst).Nodup →
      (((ms.foldl (fun acc m =>
          if optTruthy m.subj_canonical_id && optTruthy m.obj_canonical_id &&
              optTruthy m.predicate then
            (bucketInsert acc.1
              (m.subj_canonical_id.getD "", m.predicate.getD "", m.obj_canonical_id.getD "") m,
             acc.2 + 1)
          else acc) acc).1).map Prod.fst).Nodup := by
  induction ms with
  | nil => intro acc h; exact h
  | cons m ms ih =>
      intro acc hacc
      simp only [List.foldl_cons]
      apply ih
      by_cases hcond : (optTruthy m.subj_canonical_id && optTruthy m.obj_canonical_id &&
          optTruthy m.predicate) = true
      · rw [if_pos hcond]
        show ((bucketInsert acc.1 _ m).map Prod.fst).Nodup
        rw [bucketInsert_keys]
        split_ifs with hmem
        · exact hacc
        · rw [← List.concat_eq_append]
          exact hacc.concat hmem
      · rw [if_neg hcond]
        exact hacc

theorem bucket_relations_keys_nodup (ms : List RelMention) :
    (((_bucket_relations ms).1).map Prod.fst).Nodup := by
  unfold _bucket_relations
  exact bucket_foldl_keys_nodup ms ([], 0) (by simp)

theorem countP_beq_eq_one {α : Type} [BEq α] [LawfulBEq α] {l : List α} {a : α}
    (hnd : l.Nodup) (ha : a ∈ l) : l.countP (fun x => x == a) = 1 := by
  induction l with
  | nil => cases ha
  | cons b l ih =>
      rw [List.countP_cons]
      have hnb := (List.nodup_cons.mp hnd).1
      have hnl := (List.nodup_cons.mp hnd).2
      rcases List.mem_cons.mp ha with hab | hal
      · have h0 : l.countP (fun x => x == a) = 0 := by
          rw [List.countP_eq_zero]
          intro x hx
          simp only [beq_iff_eq]
          exact fun hxa => hnb (hab ▸ hxa ▸ hx)
        rw [h0]
        simp [hab]
      · have hba : ¬(b == a) = true := by
          simp only [beq_iff_eq]
          intro hba
          rw [hba] at hnb
          exact hnb hal
        rw [ih hnl hal, if_neg hba]

theorem countP_add_countP_disjoint (A B : α → Bool) (l : List α)
    (h : ∀ x ∈ l, ¬(A x = true ∧ B x = true)) :
    l.countP A + l.countP B = l.countP (fun x => A x || B x) := by
  induction l with
  | nil => rfl
  | cons a l ih =>
      simp only [List.countP_cons]
      have hal : ∀ x ∈ l, ¬(A x = true ∧ B x = true) :=
        fun x hx => h x (List.mem_cons_of_mem a hx)
      have hha := h a (List.mem_cons_self a l)
      rw [← ih hal]
      cases hA : A a <;> cases hB : B a
      · simp [hA, hB]
      · simp [hA, hB]
        omega
      · simp [hA, hB]
        omega
      · exact absurd ⟨hA, hB⟩ hha

/-- The evaluated row always carries its group's key. -/
theorem evalRelGroup_key (se : List (String × EntitySchema))
    (sr : List (String × RelRule)) (canon : String → Option CanonEntity)
    (thr : ℚ) (mev : Int) (sv : String) (kg : GroupKey × List RelMention) :
    (match evalRelGroup se sr canon thr mev sv kg.1.1 kg.1.2.1 kg.1.2.2 kg.2 with
      | .inl p => (p.subj_id, p.predicate, p.obj_id)
      | .inr q => (q.subj_id, q.predicate, q.obj_id)) = kg.1 := by
  by_cases hemp : (relGroupReasons se sr canon thr mev kg.1.1 kg.1.2.1 kg.1.2.2
      kg.2).isEmpty
  · rw [evalRelGroup_eq_inl hemp]
  · rw [evalRelGroup_eq_inr (Bool.not_eq_true _ ▸ hemp)]

/-- **C4.** The relation loop of `promote` classifies every bucketed group
into exactly one of the two output streams: the promoted and quarantined
row lists are complementary selections over the sorted buckets; every
group's key appears on exactly one row across the two streams (no group is
silently dropped or duplicated); every quarantined row carries the full
sorted, deduplicated, non-empty set of all triggered reason codes of its
group (not just the first); and every promoted row comes from a group that
triggered no reason, carrying the subject/object labels and a relation
props sample from one contributing mention. -/
theorem promote_relation_streams (se : List (String × EntitySchema))
    (sr : List (String × RelRule)) (canon : String → Option CanonEntity)
    (thr : ℚ) (mev : Int) (sv : String) (ms : List RelMention) :
    (processRelGroups se sr canon thr mev sv (_bucket_relations ms).1).1 =
        (pySort (fun a b => lex3Le a.1 b.1) (_bucket_relations ms).1).filterMap (fun kg =>
          (evalRelGroup se sr canon thr mev sv kg.1.1 kg.1.2.1 kg.1.2.2 kg.2).getLeft?) ∧
      (processRelGroups se sr canon thr mev sv (_bucket_relations ms).1).2 =
        (pySort (fun a b => lex3Le a.1 b.1) (_bucket_relations ms).1).filterMap (fun kg =>
          (evalRelGroup se sr canon thr mev sv kg.1.1 kg.1.2.1 kg.1.2.2 kg.2).getRight?) ∧
      (∀ kg ∈ pySort (fun a b => lex3Le a.1 b.1) (_bucket_relations ms).1,
        (processRelGroups se sr canon thr mev sv (_bucket_relations ms).1).1.countP
            (fun p => (p.subj_id, p.predicate, p.obj_id) == kg.1) +
          (processRelGroups se sr canon thr mev sv (_bucket_relations ms).1).2.countP
            (fun q => (q.subj_id, q.predicate, q.obj_id) == kg.1) = 1) ∧
      (∀ q ∈ (processRelGroups se sr canon thr mev sv (_bucket_relations ms).1).2,
        q.reasons ≠ [] ∧ q.reasons.Pairwise (fun a b => strLeB a b = true) ∧
          q.reasons.Nodup ∧
          ∃ kg ∈ pySort (fun a b => lex3Le a.1 b.1) (_bucket_relations ms).1,
            (q.subj_id, q.predicate, q.obj_id) = kg.1 ∧
              ∀ r, (r ∈ q.reasons ↔
                r ∈ relGroupReasons se sr canon thr mev kg.1.1 kg.1.2.1 kg.1.2.2 kg.2)) ∧
      (∀ p ∈ (processRelGroups se sr canon thr mev sv (_bucket_relations ms).1).1,
        ∃ kg ∈ pySort (fun a b => lex3Le a.1 b.1) (_bucket_relations ms).1,
          (p.subj_id, p.predicate, p.obj_id) = kg.1 ∧
            relGroupReasons se sr canon thr mev kg.1.1 kg.1.2.1 kg.1.2.2 kg.2 = [] ∧
            p.subj_labels = promotedLabels canon p.subj_id ∧
            p.obj_labels = promotedLabels canon p.obj_id ∧
            p.props = (firstProps kg.2).getD []) := by
  have hpq := processRelGroups_eq se sr canon thr mev sv (_bucket_relations ms).1
  have h1 : (processRelGroups se sr canon thr mev sv (_bucket_relations ms).1).1 =
      (pySort (fun a b => lex3Le a.1 b.1) (_bucket_relations ms).1).filterMap (fun kg =>
        (evalRelGroup se sr canon thr mev sv kg.1.1 kg.1.2.1 kg.1.2.2 kg.2).getLeft?) := by
    rw [hpq]
  have h2 : (processRelGroups se sr canon thr mev sv (_bucket_relations ms).1).2 =
      (pySort (fun a b => lex3Le a.1 b.1) (_bucket_relations ms).1).filterMap (fun kg =>
        (evalRelGroup se sr canon thr mev sv kg.1.1 kg.1.2.1 kg.1.2.2 kg.2).getRight?) := by
    rw [hpq]
  refine ⟨h1, h2, ?_, ?_, ?_⟩
  · -- exactly one stream per group key
    intro kg hkg
    have hnd : ((pySort (fun a b => lex3Le a.1 b.1) (_bucket_relations ms).1).map
        Prod.fst).Nodup :=
      (((pySort_perm _ _).map Prod.fst).nodup_iff).mpr (bucket_relations_keys_nodup ms)
    rw [h1, h2, List.countP_filterMap, List.countP_filterMap,
      countP_add_countP_disjoint]
    · have hcong := List.countP_congr (l := pySort (fun a b => lex3Le a.1 b.1)
        (_bucket_relations ms).1)
        (p := fun x => ((((evalRelGroup se sr canon thr mev sv x.1.1 x.1.2.1 x.1.2.2
          x.2).getLeft?).map (fun p => (p.subj_id, p.predicate, p.obj_id) == kg.1)).getD
            false ||
          (((evalRelGroup se sr canon thr mev sv x.1.1 x.1.2.1 x.1.2.2
            x.2).getRight?).map (fun q => (q.subj_id, q.predicate, q.obj_id) ==
              kg.1)).getD false))
        (q := fun x => x.1 == kg.1) ?_
      · rw [hcong]
        have hx : (fun x : GroupKey × List RelMention => x.1 == kg.1) =
            ((fun k => k == kg.1) ∘ Prod.fst) := rfl
        rw [hx, ← List.countP_map]
        exact countP_beq_eq_one hnd (List.mem_map_of_mem Prod.fst hkg)
      · intro x hx
        cases heval : evalRelGroup se sr canon thr mev sv x.1.1 x.1.2.1 x.1.2.2 x.2 with
        | inl p =>
            have hkey : (p.subj_id, p.predicate, p.obj_id) = x.1 := by
              have h := evalRelGroup_key se sr canon thr mev sv x
              rw [heval] at h
              exact h
            simp [heval, hkey]
        | inr q =>
            have hkey : (q.subj_id, q.predicate, q.obj_id) = x.1 := by
              have h := evalRelGroup_key se sr canon thr mev sv x
              rw [heval] at h
              exact h
            simp [heval, hkey]
    · intro x hx hAB
      rcases hAB with ⟨hA, hB⟩
      cases heval : evalRelGroup se sr canon thr mev sv x.1.1 x.1.2.1 x.1.2.2 x.2 with
      | inl p => rw [heval] at hB; simp at hB
      | inr q => rw [heval] at hA; simp at hA
  · -- quarantined rows
    intro q hq
    rw [h2] at hq
    obtain ⟨kg, hkg, hsome⟩ := List.mem_filterMap.mp hq
    have heval : evalRelGroup se sr canon thr mev sv kg.1.1 kg.1.2.1 kg.1.2.2 kg.2 =
        .inr q := by
      cases heval' : evalRelGroup se sr canon thr mev sv kg.1.1 kg.1.2.1 kg.1.2.2 kg.2 with
      | inl p => rw [heval'] at hsome; simp at hsome
      | inr q' =>
          rw [heval'] at hsome
          simp only [Sum.getRight?_inr, Option.some.injEq] at hsome
          rw [hsome]
    by_cases hemp : (relGroupReasons se sr canon thr mev kg.1.1 kg.1.2.1 kg.1.2.2
        kg.2).isEmpty
    · rw [evalRelGroup_eq_inl hemp] at heval
      cases heval
    · have hne : (relGroupReasons se sr canon thr mev kg.1.1 kg.1.2.1 kg.1.2.2
          kg.2).isEmpty = false := Bool.not_eq_true _ ▸ hemp
      rw [evalRelGroup_eq_inr hne] at heval
      have hq' := (Sum.inr.injEq _ _).mp heval
      rw [← hq']
      refine ⟨?_, pySort_pairwise _ strLeB_total strLeB_trans _,
        ((pySort_perm _ _).nodup_iff).mpr (List.nodup_dedup _),
        kg, hkg, rfl, ?_⟩
      · intro hnil
        have hlen := congrArg List.length hnil
        rw [(pySort_perm _ _).length_eq] at hlen
        have hded : (relGroupReasons se sr canon thr mev kg.1.1 kg.1.2.1 kg.1.2.2
            kg.2).dedup = [] := List.length_eq_zero.mp hlen
        have hraw := (List.dedup_eq_nil _).mp hded
        rw [hraw] at hne
        simp at hne
      · intro r
        rw [mem_pySort, List.mem_dedup]
  · -- promoted rows
    intro p hp
    rw [h1] at hp
    obtain ⟨kg, hkg, hsome⟩ := List.mem_filterMap.mp hp
    have heval : evalRelGroup se sr canon thr mev sv kg.1.1 kg.1.2.1 kg.1.2.2 kg.2 =
        .inl p := by
      cases heval' : evalRelGroup se sr canon thr mev sv kg.1.1 kg.1.2.1 kg.1.2.2 kg.2 with
      | inr q => rw [heval'] at hsome; simp at hsome
      | inl p' =>
          rw [heval'] at hsome
          simp only [Sum.getLeft?_inl, Option.some.injEq] at hsome
          rw [hsome]
    by_cases hemp : (relGroupReasons se sr canon thr mev kg.1.1 kg.1.2.1 kg.1.2.2
        kg.2).isEmpty
    · rw [evalRelGroup_eq_inl hemp] at heval
      have hp' := (Sum.inl.injEq _ _).mp heval
      rw [← hp']
      exact ⟨kg, hkg, rfl, List.isEmpty_iff.mp hemp, rfl, rfl, rfl⟩
    · rw [evalRelGroup_eq_inr (Bool.not_eq_true _ ▸ hemp)] at heval
      cases heval

/-- Closed witness for C4: the concrete below-threshold group lands on
exactly one row across the two streams. -/
theorem promote_relation_streams_witness :
    (processRelGroups seSimple srSimple canonSimple (mkRat 7 10) 2 "v1"
        (_bucket_relations [rmHigh]).1).1.countP
        (fun p => (p.subj_id, p.predicate, p.obj_id) == ("s", "P", "o")) +
      (processRelGroups seSimple srSimple canonSimple (mkRat 7 10) 2 "v1"
        (_bucket_relations [rmHigh]).1).2.countP
        (fun q => (q.subj_id, q.predicate, q.obj_id) == ("s", "P", "o")) = 1 :=
  (promote_relation_streams seSimple srSimple canonSimple (mkRat 7 10) 2 "v1"
    [rmHigh]).2.2.1 (("s", "P", "o"), [rmHigh]) (List.mem_singleton_self _)

/-- **C6.** The JSONL writer is deterministic and independent of processing
order: for any two permutations of the same output rows, `_write_jsonl`
produces byte-identical file content, because rows are sorted by their
stable sorted-keys JSON serialization (`stable_json_sort_key`) before
writing; moreover the emitted row order is sorted by that key. -/
theorem write_jsonl_deterministic (rows rows' : List Json)
    (h : List.Perm rows rows') :
    writeJsonlContent rows = writeJsonlContent rows' ∧
      (pySort (fun a b => strLeB (stable_json_sort_key a) (stable_json_sort_key b))
          rows).Pairwise
        (fun a b => strLeB (stable_json_sort_key a) (stable_json_sort_key b) = true) := by
  have key : ∀ rs : List Json, writeJsonlContent rs =
      String.join ((pySort (fun a b => strLeB a b) (rs.map Json.dumps)).map
        (fun s => s ++ "\n")) := by
    intro rs
    unfold writeJsonlContent
    rw [← map_pySort Json.dumps
      (fun a b => strLeB (stable_json_sort_key a) (stable_json_sort_key b))
      (fun a b => strLeB a b) (fun a b => rfl) rs]
    rw [List.map_map]
    rfl
  refine ⟨?_, pySort_pairwise
    (fun a b : Json => strLeB (stable_json_sort_key a) (stable_json_sort_key b))
    (fun a b => strLeB_total _ _)
    (fun a b c hab hbc => strLeB_trans _ _ _ hab hbc) rows⟩
  rw [key rows, key rows']
  rw [pySort_eq_of_perm (fun a b => strLeB a b) strLeB_total strLeB_trans strLeB_antisymm
    (h.map Json.dumps)]

/-- Closed witness for C6: two orderings of the same two rows produce the
same bytes. -/
theorem write_jsonl_deterministic_witness :
    writeJsonlContent [Json.jstr "b", Json.jstr "a"] =
        writeJsonlContent [Json.jstr "a", Json.jstr "b"] ∧
      (pySort (fun a b => strLeB (stable_json_sort_key a) (stable_json_sort_key b))
          [Json.jstr "b", Json.jstr "a"]).Pairwise
        (fun a b => strLeB (stable_json_sort_key a) (stable_json_sort_key b) = true) :=
  write_jsonl_deterministic [Json.jstr "b", Json.jstr "a"]
    [Json.jstr "a", Json.jstr "b"] (List.Perm.swap _ _ _)

/-- **C7 (code bug).** `link_entities` calls `_write_jsonl` on the same
fixed `linked.entities.jsonl` path once per document base, inside the
per-base loop, so each base's write replaces the previous content.  On a
batch of two documents that both mention `"ACME"`, the registry does mint
the canonical ID once and reuse it for the second document (both per-base
rows carry `deterministic_id "ORG" "acme"`, and the registry ends with a
single entity row), but the final file holds only the second base's row:
the first document's group row is silently lost, contradicting the spec's
"groups both documents' mentions under it / one output row per
document-group, all present in the final file". -/
theorem link_entities_overwrites_per_base :
    (link_entities RegState.empty [] []
        [("a", [lmAcme "d1" "m1"]), ("b", [lmAcme "d2" "m2"])]).2 =
        some [{ doc_id := some "d2", canonical_id := deterministic_id "ORG" "acme",
                type := "ORG", name := "ACME", mention_ids := ["m2"],
                external_ids := [] }] ∧
      (processBase RegState.empty [] [] [lmAcme "d1" "m1"]).2 =
        [{ doc_id := some "d1", canonical_id := deterministic_id "ORG" "acme",
           type := "ORG", name := "ACME", mention_ids := ["m1"],
           external_ids := [] }] ∧
      ((link_entities RegState.empty [] []
          [("a", [lmAcme "d1" "m1"]), ("b", [lmAcme "d2" "m2"])]).1).entities.length = 1 := by
  refine ⟨?_, ?_, ?_⟩ <;> decide

/-- **C10.** A relation mention whose `subj_canonical_id`, `obj_canonical_id`
or `predicate` is missing, null or empty is assigned to no relation group:
bucketing a mention list containing it yields exactly the buckets and the
`mentions_relations` count of the list without it, and hence the relation
loop's promoted and quarantined outputs are unchanged — the mention
contributes to no promoted fact and no quarantine record and is not
counted. -/
theorem bucket_relations_skips_unkeyed (pre post : List RelMention) (m : RelMention)
    (h : ¬(optTruthy m.subj_canonical_id && optTruthy m.obj_canonical_id &&
        optTruthy m.predicate) = true) :
    _bucket_relations (pre ++ m :: post) = _bucket_relations (pre ++ post) ∧
      ∀ (se : List (String × EntitySchema)) (sr : List (String × RelRule))
        (canon : String → Option CanonEntity) (thr : ℚ) (mev : Int) (sv : String),
        processRelGroups se sr canon thr mev sv (_bucket_relations (pre ++ m :: post)).1 =
          processRelGroups se sr canon thr mev sv (_bucket_relations (pre ++ post)).1 := by
  have hmain : _bucket_relations (pre ++ m :: post) = _bucket_relations (pre ++ post) := by
    unfold _bucket_relations
    rw [List.foldl_append, List.foldl_append, List.foldl_cons]
    congr 1
    exact if_neg h
  exact ⟨hmain, fun se sr canon thr mev sv => by rw [hmain]⟩

/-- Closed witness for C10: a predicate-less mention changes neither the
buckets nor the outputs. -/
theorem bucket_relations_skips_unkeyed_witness :
    _bucket_relations ([rmHigh] ++ rmNoPred :: []) = _bucket_relations ([rmHigh] ++ []) ∧
      processRelGroups seSimple srSimple canonSimple (mkRat 7 10) 2 "v1"
          (_bucket_relations ([rmHigh] ++ rmNoPred :: [])).1 =
        processRelGroups seSimple srSimple canonSimple (mkRat 7 10) 2 "v1"
          (_bucket_relations ([rmHigh] ++ [])).1 :=
  ⟨(bucket_relations_skips_unkeyed [rmHigh] [] rmNoPred (by decide)).1,
   (bucket_relations_skips_unkeyed [rmHigh] [] rmNoPred (by decide)).2
     seSimple srSimple canonSimple (mkRat 7 10) 2 "v1"⟩

/-! ## C8: the plural-number heuristic (`within_doc.py`) -/

theorem compatible_plural_estimate (form : String) (c : DerivedMention)
    (h : compatible form "plural" c = true) :
    _estimate_number_for_candidate c = "plural" := by
  unfold compatible at h
  split_ifs at h with h1 h2 h3 h4
  simp only [beq_self_eq_true, Bool.true_and, bne_iff_ne, ne_eq, not_not] at h3
  exact h3

/-- C8: counterexample.  The spec's heuristic exempts words ending in
`"ss"` from the plural guess; the code's `_estimate_number_for_candidate`
has no such exception (`len(t) > 3 and t.endswith("s")`), so the
candidate `"glass"` is estimated plural, disagreeing with the claim-side
estimator on that input. -/
theorem estimate_number_counterexample :
    _estimate_number_for_candidate candGlass = "plural" ∧
      claimNumberEstimate candGlass = "singular" ∧
      _estimate_number_for_candidate candGlass ≠ claimNumberEstimate candGlass := by
  decide

/-- C8 (amended): ORG-typed candidates are always estimated singular;
otherwise a candidate is estimated plural exactly when its trimmed text
lowercases to one of the closed plural pronouns, or is longer than three
characters and ends in `"s"` — with no `"ss"` exception; the agreement
filter of `resolve_coref` lets a candidate through for a plural pronoun
only if it is estimated plural; and on the spec's own example `"They"`
resolves to the `"battery packs"` mention by `nearest_compatible` with
confidence 0.7. -/
theorem estimate_number_amended (c : DerivedMention) (form : String)
    (cands : List DerivedMention) (x : DerivedMention)
    (hx : x ∈ cands.filter (compatible form "plural")) :
    (strUpper (c.type.getD "") = "ORG" → _estimate_number_for_candidate c = "singular") ∧
    (_estimate_number_for_candidate c = "plural" ↔
      strUpper (c.type.getD "") ≠ "ORG" ∧
        (strLower (strTrim c.text) = "they" ∨ strLower (strTrim c.text) = "these" ∨
          strLower (strTrim c.text) = "those" ∨
          ((strTrim c.text).length > 3 ∧ strEndsWith (strTrim c.text) "s" = true))) ∧
    _estimate_number_for_candidate x = "plural" ∧
    (resolve_coref [cmBatteryPacks, cmThey]).map
        (fun r => (r.antecedent_mention_id, r.coref_rule, r.coref_conf)) =
      [(none, "unresolved", 0), (some "m1", "nearest_compatible", mkRat 70 100)] := by
  refine ⟨?_, ?_, ?_, ?_⟩
  · intro h
    simp [_estimate_number_for_candidate, h]
  · simp only [_estimate_number_for_candidate]
    split_ifs with h1 h2 h3
    · exact iff_of_false (by decide) (fun hr => hr.1 (beq_iff_eq.mp h1))
    · refine iff_of_true rfl ⟨fun he => h1 (beq_iff_eq.mpr he), ?_⟩
      simp only [Bool.or_eq_true, beq_iff_eq] at h2
      rcases h2 with (h | h) | h
      · exact Or.inl h
      · exact Or.inr (Or.inl h)
      · exact Or.inr (Or.inr (Or.inl h))
    · refine iff_of_true rfl ⟨fun he => h1 (beq_iff_eq.mpr he), ?_⟩
      simp only [Bool.and_eq_true, decide_eq_true_eq] at h3
      exact Or.inr (Or.inr (Or.inr ⟨h3.1, h3.2⟩))
    · refine iff_of_false (by decide) ?_
      rintro ⟨hne, h | h | h | ⟨hlen, hends⟩⟩
      · exact h2 (by simp [h])
      · exact h2 (by simp [h])
      · exact h2 (by simp [h])
      · exact h3 (by simp [hends, hlen])
  · exact compatible_plural_estimate form x (List.mem_filter.mp hx).2
  · decide

/-- Closed witness for C8: the derived `"battery packs"` mention passes the
plural agreement filter, and the amended characterization holds at it. -/
theorem estimate_number_amended_witness :
    (_derive_mention_features cmBatteryPacks ∈
        [_derive_mention_features cmBatteryPacks].filter (compatible "they" "plural")) ∧
      ((strUpper ((_derive_mention_features cmBatteryPacks).type.getD "") = "ORG" →
          _estimate_number_for_candidate (_derive_mention_features cmBatteryPacks) =
            "singular") ∧
        (_estimate_number_for_candidate (_derive_mention_features cmBatteryPacks) =
            "plural" ↔
          strUpper ((_derive_mention_features cmBatteryPacks).type.getD "") ≠ "ORG" ∧
            (strLower (strTrim (_derive_mention_features cmBatteryPacks).text) = "they" ∨
              strLower (strTrim (_derive_mention_features cmBatteryPacks).text) =
                "these" ∨
              strLower (strTrim (_derive_mention_features cmBatteryPacks).text) =
                "those" ∨
              ((strTrim (_derive_mention_features cmBatteryPacks).text).length > 3 ∧
                strEndsWith (strTrim (_derive_mention_features cmBatteryPacks).text) "s" =
                  true))) ∧
        _estimate_number_for_candidate (_derive_mention_features cmBatteryPacks) =
          "plural" ∧
        (resolve_coref [cmBatteryPacks, cmThey]).map
            (fun r => (r.antecedent_mention_id, r.coref_rule, r.coref_conf)) =
          [(none, "unresolved", 0), (some "m1", "nearest_compatible", mkRat 70 100)]) :=
  ⟨by decide,
   estimate_number_amended (_derive_mention_features cmBatteryPacks) "they"
     [_derive_mention_features cmBatteryPacks] (_derive_mention_features cmBatteryPacks)
     (by decide)⟩

/-! ## C9: CLI exit codes (`promote.main`, `linker.main`) -/

/-- C9: counterexample.  The spec says an unreadable schema file (and,
for the linker, a missing input directory) exits with code 2; in the code
those failures raise inside the `try/except Exception` body and `main`
returns 1 — only `argparse` usage errors produce 2. -/
theorem cli_exit_counterexample :
    promote_main (.ok false) (.error "schema file unreadable") (.ok 0) (.ok ()) = 1 ∧
      linker_main (.ok ()) (.error "input directory missing") = 1 ∧
      (1 : Int) ≠ 2 :=
  ⟨rfl, rfl, by decide⟩

/-- C9 (amended): exit code 2 arises exactly from `argparse` usage
failures (`SystemExit(2)`, not caught by `except Exception`); any step
raising inside the `try` — schema load, doctor run, promotion, or the
linker's `link_entities` — yields exit code 1; a completed doctor run
returns its own code, and completed promotion or linking returns 0. -/
theorem cli_exit_codes (ls : Except String Unit) (rd : Except String Int)
    (rp rl : Except String Unit) (c : Int) (e : String) :
    promote_main .usageExit ls rd rp = 2 ∧
    (∀ b : Bool, promote_main (.ok b) (.error e) rd rp = 1) ∧
    promote_main (.ok false) (.ok ()) rd (.error e) = 1 ∧
    promote_main (.ok true) (.ok ()) (.error e) rp = 1 ∧
    promote_main (.ok true) (.ok ()) (.ok c) rp = c ∧
    promote_main (.ok false) (.ok ()) rd (.ok ()) = 0 ∧
    linker_main .usageExit rl = 2 ∧
    linker_main (.ok ()) (.error e) = 1 ∧
    linker_main (.ok ()) (.ok ()) = 0 :=
  ⟨rfl, fun _ => rfl, rfl, rfl, rfl, rfl, rfl, rfl, rfl⟩

end Combo
